import Mathlib

/-!
# MT3_2-4: 3D geometry kernel

A shallow embedding of the math part of `src/main.cpp`: the 4x4 matrix algebra,
the point transform with perspective divide, the `Vector3` helpers and the
line-segment / triangle predicate `IsCollision`.

`float` is read as an exact linearly ordered field `α` (the theorems about the
collision predicate take `α = ℝ`).  `std::sqrt` is a parameter `sqrt : α → α`
of the functions that call it, instantiated with `Real.sqrt` in the theorems;
`std::cos`, `std::sin` and `tanf` are parameters in the same way, instantiated
with `Real.cos`, `Real.sin` and `Real.tan`.

A second reading of `Cross`, `Dot`, `Normalize`, `IsCollision`,
`MakeViewportMatrix` and `Transform`, in namespace `Float32`, rounds every
operation to binary32; it is used at concrete inputs, to show where rounding
departs from the exact reading.
The literal `1e-6f` is read as its exact binary32 value `8796093 / 2^43`.
-/

namespace MT3

/-! ## Data model (`src/main.cpp` lines 20-54) -/

/-- The `struct Matrix4x4 { float m[4][4]; }`. -/
@[ext]
structure Matrix4x4 (α : Type) where
  m : Fin 4 → Fin 4 → α

/-- The `struct Vector3 { float x; float y; float z; }`. -/
@[ext]
structure Vector3 (α : Type) where
  x : α
  y : α
  z : α
deriving DecidableEq

/-- The `struct LineSegment { Vector3 start; Vector3 end; }`. -/
structure LineSegment (α : Type) where
  start : Vector3 α
  «end» : Vector3 α

/-- The `struct Triangle { Vector3 p1; Vector3 p2; Vector3 p3; }`. -/
structure Triangle (α : Type) where
  p1 : Vector3 α
  p2 : Vector3 α
  p3 : Vector3 α

section Defs

variable {α : Type} [LinearOrderedField α]

/-- The assignment `matrix.m[i][j] = v` on a matrix value. -/
def Matrix4x4.set (M : Matrix4x4 α) (i j : Fin 4) (v : α) : Matrix4x4 α :=
  ⟨fun a b => if a = i ∧ b = j then v else M.m a b⟩

/-- Function `MakeIdentity4x4` (lines 59-67): entry `(i == j) ? 1.0f : 0.0f`. -/
def MakeIdentity4x4 : Matrix4x4 α :=
  ⟨fun i j => if i = j then 1 else 0⟩

/-- Function `Multiply` (lines 75-86): each entry starts at `0.0f` and accumulates
`m1.m[i][k] * m2.m[k][j]` for `k = 0, 1, 2, 3` in this order. -/
def Multiply (m1 m2 : Matrix4x4 α) : Matrix4x4 α :=
  ⟨fun i j => Fin.foldl 4 (fun acc k => acc + m1.m i k * m2.m k j) 0⟩

/-- Function `Cross` (lines 94-100). -/
def Cross (v1 v2 : Vector3 α) : Vector3 α :=
  { x := v1.y * v2.z - v1.z * v2.y
    y := v1.z * v2.x - v1.x * v2.z
    z := v1.x * v2.y - v1.y * v2.x }

/-- Function `Dot` (lines 108-110). -/
def Dot (v1 v2 : Vector3 α) : α :=
  v1.x * v2.x + v1.y * v2.y + v1.z * v2.z

/-- Function `MakeRotateXMatrix` (lines 118-125); `cos` and `sin` stand for
`std::cos` and `std::sin`. -/
def MakeRotateXMatrix (cos sin : α → α) (radian : α) : Matrix4x4 α :=
  let matrix : Matrix4x4 α := MakeIdentity4x4
  let matrix := matrix.set 1 1 (cos radian)
  let matrix := matrix.set 1 2 (sin radian)
  let matrix := matrix.set 2 1 (-sin radian)
  let matrix := matrix.set 2 2 (cos radian)
  matrix

/-- Function `MakeRotateYMatrix` (lines 132-139). -/
def MakeRotateYMatrix (cos sin : α → α) (radian : α) : Matrix4x4 α :=
  let matrix : Matrix4x4 α := MakeIdentity4x4
  let matrix := matrix.set 0 0 (cos radian)
  let matrix := matrix.set 0 2 (-sin radian)
  let matrix := matrix.set 2 0 (sin radian)
  let matrix := matrix.set 2 2 (cos radian)
  matrix

/-- Function `MakeRotateZMatrix` (lines 146-153). -/
def MakeRotateZMatrix (cos sin : α → α) (radian : α) : Matrix4x4 α :=
  let matrix : Matrix4x4 α := MakeIdentity4x4
  let matrix := matrix.set 0 0 (cos radian)
  let matrix := matrix.set 0 1 (sin radian)
  let matrix := matrix.set 1 0 (-sin radian)
  let matrix := matrix.set 1 1 (cos radian)
  matrix

/-- Function `MakeTranslateMatrix` (lines 160-166). -/
def MakeTranslateMatrix (translate : Vector3 α) : Matrix4x4 α :=
  let matrix : Matrix4x4 α := MakeIdentity4x4
  let matrix := matrix.set 3 0 translate.x
  let matrix := matrix.set 3 1 translate.y
  let matrix := matrix.set 3 2 translate.z
  matrix

/-- Function `Inverse` (lines 207-221): starts from the identity, writes the transposed
upper-left 3x3 block, then writes row 3 from the entries of `result` written
just before. -/
def Inverse (matrix : Matrix4x4 α) : Matrix4x4 α :=
  let result : Matrix4x4 α := MakeIdentity4x4
  let result := result.set 0 0 (matrix.m 0 0)
  let result := result.set 1 0 (matrix.m 0 1)
  let result := result.set 2 0 (matrix.m 0 2)
  let result := result.set 0 1 (matrix.m 1 0)
  let result := result.set 1 1 (matrix.m 1 1)
  let result := result.set 2 1 (matrix.m 1 2)
  let result := result.set 0 2 (matrix.m 2 0)
  let result := result.set 1 2 (matrix.m 2 1)
  let result := result.set 2 2 (matrix.m 2 2)
  let result := result.set 3 0
    (-matrix.m 3 0 * result.m 0 0 - matrix.m 3 1 * result.m 1 0 - matrix.m 3 2 * result.m 2 0)
  let result := result.set 3 1
    (-matrix.m 3 0 * result.m 0 1 - matrix.m 3 1 * result.m 1 1 - matrix.m 3 2 * result.m 2 1)
  let result := result.set 3 2
    (-matrix.m 3 0 * result.m 0 2 - matrix.m 3 1 * result.m 1 2 - matrix.m 3 2 * result.m 2 2)
  result

/-- Function `MakePerspectiveFovMatrix` (lines 231-256): all sixteen entries are
assigned, row by row; `tan` stands for `tanf`. -/
def MakePerspectiveFovMatrix (tan : α → α) (fovY aspectRatio nearClip farClip : α) :
    Matrix4x4 α :=
  let h := 1 / tan (fovY / 2)
  ⟨![![h / aspectRatio, 0, 0, 0],
     ![0, h, 0, 0],
     ![0, 0, farClip / (farClip - nearClip), 1],
     ![0, 0, -nearClip * farClip / (farClip - nearClip), 0]]⟩

/-- Function `MakeViewportMatrix` (lines 268-292): all sixteen entries are
assigned, row by row. -/
def MakeViewportMatrix (left top width height minDepth maxDepth : α) : Matrix4x4 α :=
  ⟨![![width / 2, 0, 0, 0],
     ![0, -height / 2, 0, 0],
     ![0, 0, maxDepth - minDepth, 0],
     ![left + width / 2, top + height / 2, minDepth, 1]]⟩

/-- The local `w` of `Transform`: the homogeneous divisor. -/
def TransformW (vector : Vector3 α) (matrix : Matrix4x4 α) : α :=
  matrix.m 0 3 * vector.x +
  matrix.m 1 3 * vector.y +
  matrix.m 2 3 * vector.z +
  matrix.m 3 3

/-- Function `Transform` (lines 300-323): the point is read with an implicit `w = 1`
and the three components are divided by the transformed `w`. -/
def Transform (vector : Vector3 α) (matrix : Matrix4x4 α) : Vector3 α :=
  let w :=
    matrix.m 0 3 * vector.x +
    matrix.m 1 3 * vector.y +
    matrix.m 2 3 * vector.z +
    matrix.m 3 3
  { x := (matrix.m 0 0 * vector.x +
          matrix.m 1 0 * vector.y +
          matrix.m 2 0 * vector.z +
          matrix.m 3 0) / w
    y := (matrix.m 0 1 * vector.x +
          matrix.m 1 1 * vector.y +
          matrix.m 2 1 * vector.z +
          matrix.m 3 1) / w
    z := (matrix.m 0 2 * vector.x +
          matrix.m 1 2 * vector.y +
          matrix.m 2 2 * vector.z +
          matrix.m 3 2) / w }

/-- Function `Normalize` (lines 418-424); `sqrt` stands for `std::sqrt`. -/
def Normalize (sqrt : α → α) (vector : Vector3 α) : Vector3 α :=
  let length := sqrt (vector.x * vector.x + vector.y * vector.y + vector.z * vector.z)
  if length = 0 then
    { x := 0, y := 0, z := 0 }
  else
    { x := vector.x / length, y := vector.y / length, z := vector.z / length }

/-- Function `Perpendicular` (lines 431-436). -/
def Perpendicular (vector : Vector3 α) : Vector3 α :=
  if vector.x ≠ 0 ∨ vector.y ≠ 0 then
    { x := -vector.y, y := vector.x, z := 0 }
  else
    { x := 0, y := vector.z, z := vector.y }

/-- The camera world matrix of the update loop of `WinMain` (lines 594-596):
rotation `X * (Y * Z)` by nested `Multiply`, then the translation. -/
def cameraWorldMatrix (cos sin : α → α) (cameraRotate cameraTranslate : Vector3 α) :
    Matrix4x4 α :=
  let cameraRotateMatrix :=
    Multiply (MakeRotateXMatrix cos sin cameraRotate.x)
      (Multiply (MakeRotateYMatrix cos sin cameraRotate.y)
        (MakeRotateZMatrix cos sin cameraRotate.z))
  let cameraTranslateMatrix := MakeTranslateMatrix cameraTranslate
  Multiply cameraRotateMatrix cameraTranslateMatrix

/-- The constant `kEpsilon = 1e-6f` of `IsCollision` (line 491): the binary32
number nearest to `10⁻⁶`, which is `8796093 * 2⁻⁴³`, slightly below `10⁻⁶`
(`Float32.kEpsilon_value` ties it to the rounded literal). -/
def kEpsilon : α := 8796093 / 8796093022208

/-- Function `IsCollision` (lines 471-542); `sqrt` stands for the `std::sqrt` called by
`Normalize`. -/
def IsCollision (sqrt : α → α) (lineSegment : LineSegment α) (triangle : Triangle α) : Bool :=
  let v0 := triangle.p1
  let v1 := triangle.p2
  let v2 := triangle.p3
  let edge1 : Vector3 α := { x := v1.x - v0.x, y := v1.y - v0.y, z := v1.z - v0.z }
  let edge2 : Vector3 α := { x := v2.x - v0.x, y := v2.y - v0.y, z := v2.z - v0.z }
  let normal := Normalize sqrt (Cross edge1 edge2)
  let distance := Dot normal v0
  let lineDirection : Vector3 α :=
    { x := lineSegment.end.x - lineSegment.start.x
      y := lineSegment.end.y - lineSegment.start.y
      z := lineSegment.end.z - lineSegment.start.z }
  let dot_n_ld := Dot normal lineDirection
  if abs dot_n_ld < kEpsilon then
    let dist_start_plane := Dot normal lineSegment.start - distance
    if abs dist_start_plane < kEpsilon then
      false
    else
      false
  else
    let t := (distance - Dot normal lineSegment.start) / dot_n_ld
    if t < 0 ∨ t > 1 then
      false
    else
      let intersectionPoint : Vector3 α :=
        { x := lineSegment.start.x + t * lineDirection.x
          y := lineSegment.start.y + t * lineDirection.y
          z := lineSegment.start.z + t * lineDirection.z }
      let p := intersectionPoint
      let a := triangle.p1
      let b := triangle.p2
      let c := triangle.p3
      let ab : Vector3 α := { x := b.x - a.x, y := b.y - a.y, z := b.z - a.z }
      let ac : Vector3 α := { x := c.x - a.x, y := c.y - a.y, z := c.z - a.z }
      let ap : Vector3 α := { x := p.x - a.x, y := p.y - a.y, z := p.z - a.z }
      let dot_ab_ab := Dot ab ab
      let dot_ab_ac := Dot ab ac
      let dot_ac_ac := Dot ac ac
      let dot_ap_ab := Dot ap ab
      let dot_ap_ac := Dot ap ac
      let denominator := dot_ab_ab * dot_ac_ac - dot_ab_ac * dot_ab_ac
      if abs denominator < kEpsilon then
        false
      else
        let u := (dot_ac_ac * dot_ap_ab - dot_ab_ac * dot_ap_ac) / denominator
        let v := (dot_ab_ab * dot_ap_ac - dot_ab_ac * dot_ap_ab) / denominator
        decide (u ≥ 0) && decide (v ≥ 0) && decide (u + v ≤ 1)

/-! The local variables of `IsCollision`, as functions of its arguments. -/

/-- The local `edge1` (and `ab`) of `IsCollision`: `p2 - p1`. -/
def edge1 (triangle : Triangle α) : Vector3 α :=
  { x := triangle.p2.x - triangle.p1.x
    y := triangle.p2.y - triangle.p1.y
    z := triangle.p2.z - triangle.p1.z }

/-- The local `edge2` (and `ac`) of `IsCollision`: `p3 - p1`. -/
def edge2 (triangle : Triangle α) : Vector3 α :=
  { x := triangle.p3.x - triangle.p1.x
    y := triangle.p3.y - triangle.p1.y
    z := triangle.p3.z - triangle.p1.z }

/-- The local `normal` of `IsCollision`. -/
def normal (sqrt : α → α) (triangle : Triangle α) : Vector3 α :=
  Normalize sqrt (Cross (edge1 triangle) (edge2 triangle))

/-- The local `distance` of `IsCollision`. -/
def distance (sqrt : α → α) (triangle : Triangle α) : α :=
  Dot (normal sqrt triangle) triangle.p1

/-- The local `lineDirection` of `IsCollision`: `end - start`. -/
def lineDirection (lineSegment : LineSegment α) : Vector3 α :=
  { x := lineSegment.end.x - lineSegment.start.x
    y := lineSegment.end.y - lineSegment.start.y
    z := lineSegment.end.z - lineSegment.start.z }

/-- The local `dot_n_ld` of `IsCollision`. -/
def dot_n_ld (sqrt : α → α) (lineSegment : LineSegment α) (triangle : Triangle α) : α :=
  Dot (normal sqrt triangle) (lineDirection lineSegment)

/-- The local `t` of `IsCollision`, the plane-intersection parameter. -/
def planeT (sqrt : α → α) (lineSegment : LineSegment α) (triangle : Triangle α) : α :=
  (distance sqrt triangle - Dot (normal sqrt triangle) lineSegment.start)
    / dot_n_ld sqrt lineSegment triangle

/-- The local `intersectionPoint` of `IsCollision`. -/
def intersectionPoint (sqrt : α → α) (lineSegment : LineSegment α) (triangle : Triangle α) :
    Vector3 α :=
  { x := lineSegment.start.x + planeT sqrt lineSegment triangle * (lineDirection lineSegment).x
    y := lineSegment.start.y + planeT sqrt lineSegment triangle * (lineDirection lineSegment).y
    z := lineSegment.start.z + planeT sqrt lineSegment triangle * (lineDirection lineSegment).z }

/-- The local `ap` of `IsCollision`: `intersectionPoint - p1`. -/
def apVec (sqrt : α → α) (lineSegment : LineSegment α) (triangle : Triangle α) : Vector3 α :=
  { x := (intersectionPoint sqrt lineSegment triangle).x - triangle.p1.x
    y := (intersectionPoint sqrt lineSegment triangle).y - triangle.p1.y
    z := (intersectionPoint sqrt lineSegment triangle).z - triangle.p1.z }

/-- The local `denominator` of `IsCollision`:
`dot_ab_ab * dot_ac_ac - dot_ab_ac * dot_ab_ac`. -/
def denominator (triangle : Triangle α) : α :=
  Dot (edge1 triangle) (edge1 triangle) * Dot (edge2 triangle) (edge2 triangle)
    - Dot (edge1 triangle) (edge2 triangle) * Dot (edge1 triangle) (edge2 triangle)

/-- The local `u` of `IsCollision`. -/
def baryU (sqrt : α → α) (lineSegment : LineSegment α) (triangle : Triangle α) : α :=
  (Dot (edge2 triangle) (edge2 triangle) * Dot (apVec sqrt lineSegment triangle) (edge1 triangle)
    - Dot (edge1 triangle) (edge2 triangle)
        * Dot (apVec sqrt lineSegment triangle) (edge2 triangle)) / denominator triangle

/-- The local `v` of `IsCollision`. -/
def baryV (sqrt : α → α) (lineSegment : LineSegment α) (triangle : Triangle α) : α :=
  (Dot (edge1 triangle) (edge1 triangle) * Dot (apVec sqrt lineSegment triangle) (edge2 triangle)
    - Dot (edge1 triangle) (edge2 triangle)
        * Dot (apVec sqrt lineSegment triangle) (edge1 triangle)) / denominator triangle

/-- The default `triangle` of `WinMain` (lines 573-577). -/
def defaultTriangle : Triangle α :=
  { p1 := ⟨-1, 0, 1⟩, p2 := ⟨0, 1, 0⟩, p3 := ⟨1, 0, 1⟩ }

/-- The default `lineSegment` of `WinMain` (line 560). -/
def defaultLineSegment : LineSegment α :=
  { start := ⟨-2, 1, -1⟩, «end» := ⟨0, 1, 1⟩ }

/-- A sample triangle in the plane `z = 0`: `(0,0,0)`, `(1,0,0)`, `(0,1,0)`. -/
def unitTriangle : Triangle α :=
  { p1 := ⟨0, 0, 0⟩, p2 := ⟨1, 0, 0⟩, p3 := ⟨0, 1, 0⟩ }

/-- A sample segment crossing the plane `z = 0` at `(1/4, 1/4, 0)`. -/
def crossingSegment : LineSegment α :=
  { start := ⟨1 / 4, 1 / 4, -1⟩, «end» := ⟨1 / 4, 1 / 4, 1⟩ }

/-- A sample segment lying in the plane `z = 0` and passing through the
interior of `unitTriangle` (at `(1/4, 1/4, 0)`, among others). -/
def coplanarSegment : LineSegment α :=
  { start := ⟨-1, 1 / 4, 0⟩, «end» := ⟨1, 1 / 4, 0⟩ }

/-- A sample segment above the plane `z = 0` whose line meets `unitTriangle`
at `(1/4, 1/4, 0)`, outside the segment. -/
def aboveSegment : LineSegment α :=
  { start := ⟨1 / 4, 1 / 4, 1⟩, «end» := ⟨1 / 4, 1 / 4, 2⟩ }

/-- A sample segment starting at the vertex `p1` of `unitTriangle`. -/
def vertexSegment : LineSegment α :=
  { start := ⟨0, 0, 0⟩, «end» := ⟨0, 0, 1⟩ }

/-- The degenerate triangle `(0,0,0), (1,0,0), (2,0,0)`. -/
def collinearTriangle : Triangle α :=
  { p1 := ⟨0, 0, 0⟩, p2 := ⟨1, 0, 0⟩, p3 := ⟨2, 0, 0⟩ }

/-- Three points are collinear: they lie on one line `o + s * w` (the direction
`w` may be zero, which covers coincident vertices). -/
def Collinear3 (p1 p2 p3 : Vector3 α) : Prop :=
  ∃ (o w : Vector3 α) (a b c : α),
    (p1.x = o.x + a * w.x ∧ p1.y = o.y + a * w.y ∧ p1.z = o.z + a * w.z) ∧
    (p2.x = o.x + b * w.x ∧ p2.y = o.y + b * w.y ∧ p2.z = o.z + b * w.z) ∧
    (p3.x = o.x + c * w.x ∧ p3.y = o.y + c * w.y ∧ p3.z = o.z + c * w.z)

/-- Rigid transform in the row-vector layout of the source: the upper-left 3x3
block `R` satisfies `R * Rᵀ = I` (its rows are orthonormal), the last column is
`(0, 0, 0, 1)`, and row 3 holds an arbitrary translation. -/
def IsRigid (M : Matrix4x4 α) : Prop :=
  (∀ i j : Fin 4, i ≠ 3 → j ≠ 3 →
    M.m i 0 * M.m j 0 + M.m i 1 * M.m j 1 + M.m i 2 * M.m j 2 = if i = j then 1 else 0) ∧
  M.m 0 3 = 0 ∧ M.m 1 3 = 0 ∧ M.m 2 3 = 0 ∧ M.m 3 3 = 1

/-- A sample rigid transform: a quarter turn about the z axis followed by the
translation `(5, 6, 7)`. -/
def sampleRigid : Matrix4x4 ℚ :=
  ⟨![![0, 1, 0, 0], ![-1, 0, 0, 0], ![0, 0, 1, 0], ![5, 6, 7, 1]]⟩

/-- A sample perspective matrix (`h = 2`, aspect `2`, near `1`, far `3`). -/
def samplePerspective : Matrix4x4 ℚ :=
  ⟨![![1, 0, 0, 0], ![0, 2, 0, 0], ![0, 0, 3 / 2, 1], ![0, 0, -3 / 2, 0]]⟩

/-- The viewport matrix built in `WinMain` (line 607). -/
def sampleViewport : Matrix4x4 ℚ :=
  MakeViewportMatrix 0 0 1280 720 0 1

end Defs

/-! ## A binary32 reading of the same code

The definitions above read `float` as an exact field.  The ones below read it
as IEEE 754 binary32 with round-to-nearest-even after every operation, for
finite values: a value is an integer number of units `2⁻¹⁴⁹` (the smallest
subnormal).  Overflow, infinities, NaN and the sign of zero are not
represented; division by zero and the square root of a negative number give
zero here, and no statement below evaluates them. -/

/-- A finite binary32 value: the number `k * 2⁻¹⁴⁹`. -/
structure F32 where
  k : ℤ
deriving DecidableEq

namespace F32

/-- Number of binary digits, with fuel. -/
def bitLenAux : ℕ → ℕ → ℕ
  | 0, _ => 0
  | f + 1, n => if n = 0 then 0 else bitLenAux f (n / 2) + 1

/-- Number of binary digits of `n` (`0` for `0`). -/
def bitLen (n : ℕ) : ℕ := bitLenAux n n

/-- The integer nearest to `n / d`, ties to the even one. -/
def rne (n d : ℕ) : ℕ :=
  let fl := n / d
  let r := n % d
  if 2 * r < d then fl
  else if d < 2 * r then fl + 1
  else if fl % 2 = 0 then fl else fl + 1

/-- The binary32 value (in units of `2⁻¹⁴⁹`) nearest to `n / d` units, ties to
even: the result keeps 24 significant bits, and is an integer number of units
(the subnormal range). -/
def roundUnits (n d : ℕ) : ℕ :=
  let sh := bitLen (n / d) - 24
  rne n (d * 2 ^ sh) * 2 ^ sh

/-- Signed rounding of `n / d` units. -/
def roundQ (n : ℤ) (d : ℕ) : ℤ :=
  if n < 0 then -(roundUnits n.natAbs d : ℤ) else (roundUnits n.natAbs d : ℤ)

/-- The binary32 value nearest to the rational `n / d`, as a literal such as
`0.1f` denotes it. -/
def ofQ (n : ℤ) (d : ℕ) : F32 := ⟨roundQ (n * 2 ^ 149) d⟩

/-- The binary32 value of an integer literal such as `1.0f`. -/
def ofInt (n : ℤ) : F32 := ofQ n 1

/-- The rational number a binary32 value stands for. -/
def toRat (a : F32) : ℚ := (a.k : ℚ) / 2 ^ 149

/-- Integer square root, bit by bit: the largest `s` below `2 ^ b` above `acc`
with `s * s ≤ N`. -/
def isqrtAux (N : ℕ) : ℕ → ℕ → ℕ
  | 0, acc => acc
  | b + 1, acc =>
    if (acc + 2 ^ b) * (acc + 2 ^ b) ≤ N then isqrtAux N b (acc + 2 ^ b)
    else isqrtAux N b acc

/-- Integer square root: the largest `s` with `s * s ≤ N`. -/
def isqrt (N : ℕ) : ℕ := isqrtAux N (bitLen N / 2 + 1) 0

instance : Add F32 := ⟨fun a b => ⟨roundQ (a.k + b.k) 1⟩⟩

instance : Sub F32 := ⟨fun a b => ⟨roundQ (a.k - b.k) 1⟩⟩

instance : Mul F32 := ⟨fun a b => ⟨roundQ (a.k * b.k) (2 ^ 149)⟩⟩

instance : Div F32 :=
  ⟨fun a b => ⟨roundQ (if b.k < 0 then -(a.k * 2 ^ 149) else a.k * 2 ^ 149) b.k.natAbs⟩⟩

instance : Neg F32 := ⟨fun a => ⟨-a.k⟩⟩

instance : LT F32 := ⟨fun a b => a.k < b.k⟩

instance : LE F32 := ⟨fun a b => a.k ≤ b.k⟩

instance (a b : F32) : Decidable (a < b) := inferInstanceAs (Decidable (a.k < b.k))

instance (a b : F32) : Decidable (a ≤ b) := inferInstanceAs (Decidable (a.k ≤ b.k))

/-- The function `std::abs` on binary32. -/
def abs (a : F32) : F32 := ⟨|a.k|⟩

/-- The function `std::sqrt` on binary32, correctly rounded: the square root of
`k` units is `√(k * 2¹⁴⁹)` units; with `s = ⌊√(k * 2¹⁵¹)⌋` it lies at `s / 2`
units when that is exact and strictly between `s / 2` and `(s + 1) / 2`
otherwise, where `(2 * s + 1) / 4` rounds the same way. -/
def sqrt (a : F32) : F32 :=
  let N := a.k.toNat * 2 ^ 151
  let s := isqrt N
  ⟨(roundUnits (2 * s + (if s * s = N then 0 else 1)) 4 : ℤ)⟩

end F32

/-- The rational vector a binary32 vector stands for. -/
def toRatV (v : Vector3 F32) : Vector3 ℚ :=
  { x := v.x.toRat, y := v.y.toRat, z := v.z.toRat }

namespace Float32

/-- Function `Cross` (lines 94-100) in binary32. -/
def Cross (v1 v2 : Vector3 F32) : Vector3 F32 :=
  { x := v1.y * v2.z - v1.z * v2.y
    y := v1.z * v2.x - v1.x * v2.z
    z := v1.x * v2.y - v1.y * v2.x }

/-- Function `Dot` (lines 108-110) in binary32. -/
def Dot (v1 v2 : Vector3 F32) : F32 :=
  v1.x * v2.x + v1.y * v2.y + v1.z * v2.z

/-- Function `MakeViewportMatrix` (lines 268-292) in binary32. -/
def MakeViewportMatrix (left top width height minDepth maxDepth : F32) : Matrix4x4 F32 :=
  ⟨![![width / F32.ofInt 2, F32.ofInt 0, F32.ofInt 0, F32.ofInt 0],
     ![F32.ofInt 0, -height / F32.ofInt 2, F32.ofInt 0, F32.ofInt 0],
     ![F32.ofInt 0, F32.ofInt 0, maxDepth - minDepth, F32.ofInt 0],
     ![left + width / F32.ofInt 2, top + height / F32.ofInt 2, minDepth, F32.ofInt 1]]⟩

/-- Function `Transform` (lines 300-323) in binary32. -/
def Transform (vector : Vector3 F32) (matrix : Matrix4x4 F32) : Vector3 F32 :=
  let w :=
    matrix.m 0 3 * vector.x +
    matrix.m 1 3 * vector.y +
    matrix.m 2 3 * vector.z +
    matrix.m 3 3
  { x := (matrix.m 0 0 * vector.x +
          matrix.m 1 0 * vector.y +
          matrix.m 2 0 * vector.z +
          matrix.m 3 0) / w
    y := (matrix.m 0 1 * vector.x +
          matrix.m 1 1 * vector.y +
          matrix.m 2 1 * vector.z +
          matrix.m 3 1) / w
    z := (matrix.m 0 2 * vector.x +
          matrix.m 1 2 * vector.y +
          matrix.m 2 2 * vector.z +
          matrix.m 3 2) / w }

/-- Function `Normalize` (lines 418-424) in binary32. -/
def Normalize (vector : Vector3 F32) : Vector3 F32 :=
  let length := F32.sqrt (vector.x * vector.x + vector.y * vector.y + vector.z * vector.z)
  if length = F32.ofInt 0 then
    { x := F32.ofInt 0, y := F32.ofInt 0, z := F32.ofInt 0 }
  else
    { x := vector.x / length, y := vector.y / length, z := vector.z / length }

/-- The constant `kEpsilon = 1e-6f` (line 491) as the rounded literal. -/
def kEpsilon : F32 := F32.ofQ 1 1000000

/-- The local `dot_n_ld` of `IsCollision` (lines 473-488) in binary32. -/
def dot_n_ld (lineSegment : LineSegment F32) (triangle : Triangle F32) : F32 :=
  let v0 := triangle.p1
  let v1 := triangle.p2
  let v2 := triangle.p3
  let edge1 : Vector3 F32 := { x := v1.x - v0.x, y := v1.y - v0.y, z := v1.z - v0.z }
  let edge2 : Vector3 F32 := { x := v2.x - v0.x, y := v2.y - v0.y, z := v2.z - v0.z }
  let normal := Normalize (Cross edge1 edge2)
  let lineDirection : Vector3 F32 :=
    { x := lineSegment.end.x - lineSegment.start.x
      y := lineSegment.end.y - lineSegment.start.y
      z := lineSegment.end.z - lineSegment.start.z }
  Dot normal lineDirection

/-- Function `IsCollision` (lines 471-542) in binary32. -/
def IsCollision (lineSegment : LineSegment F32) (triangle : Triangle F32) : Bool :=
  let v0 := triangle.p1
  let v1 := triangle.p2
  let v2 := triangle.p3
  let edge1 : Vector3 F32 := { x := v1.x - v0.x, y := v1.y - v0.y, z := v1.z - v0.z }
  let edge2 : Vector3 F32 := { x := v2.x - v0.x, y := v2.y - v0.y, z := v2.z - v0.z }
  let normal := Normalize (Cross edge1 edge2)
  let distance := Dot normal v0
  let lineDirection : Vector3 F32 :=
    { x := lineSegment.end.x - lineSegment.start.x
      y := lineSegment.end.y - lineSegment.start.y
      z := lineSegment.end.z - lineSegment.start.z }
  let dot_n_ld := Dot normal lineDirection
  if F32.abs dot_n_ld < kEpsilon then
    let dist_start_plane := Dot normal lineSegment.start - distance
    if F32.abs dist_start_plane < kEpsilon then
      false
    else
      false
  else
    let t := (distance - Dot normal lineSegment.start) / dot_n_ld
    if t < F32.ofInt 0 ∨ t > F32.ofInt 1 then
      false
    else
      let intersectionPoint : Vector3 F32 :=
        { x := lineSegment.start.x + t * lineDirection.x
          y := lineSegment.start.y + t * lineDirection.y
          z := lineSegment.start.z + t * lineDirection.z }
      let p := intersectionPoint
      let a := triangle.p1
      let b := triangle.p2
      let c := triangle.p3
      let ab : Vector3 F32 := { x := b.x - a.x, y := b.y - a.y, z := b.z - a.z }
      let ac : Vector3 F32 := { x := c.x - a.x, y := c.y - a.y, z := c.z - a.z }
      let ap : Vector3 F32 := { x := p.x - a.x, y := p.y - a.y, z := p.z - a.z }
      let dot_ab_ab := Dot ab ab
      let dot_ab_ac := Dot ab ac
      let dot_ac_ac := Dot ac ac
      let dot_ap_ab := Dot ap ab
      let dot_ap_ac := Dot ap ac
      let denominator := dot_ab_ab * dot_ac_ac - dot_ab_ac * dot_ab_ac
      if F32.abs denominator < kEpsilon then
        false
      else
        let u := (dot_ac_ac * dot_ap_ab - dot_ab_ac * dot_ap_ac) / denominator
        let v := (dot_ab_ab * dot_ap_ac - dot_ab_ac * dot_ap_ab) / denominator
        decide (u ≥ F32.ofInt 0) && decide (v ≥ F32.ofInt 0) && decide (u + v ≤ F32.ofInt 1)

/-- The triangle `(0,0,0), (1,0,0), (0,1,0)` in binary32. -/
def unitTriangle : Triangle F32 :=
  { p1 := ⟨F32.ofInt 0, F32.ofInt 0, F32.ofInt 0⟩
    p2 := ⟨F32.ofInt 1, F32.ofInt 0, F32.ofInt 0⟩
    p3 := ⟨F32.ofInt 0, F32.ofInt 1, F32.ofInt 0⟩ }

/-- A segment from `(1/4, 1/4, 0)`, inside `unitTriangle`, straight up by
`1e-6f`. -/
def thresholdSegment : LineSegment F32 :=
  { start := ⟨F32.ofQ 1 4, F32.ofQ 1 4, F32.ofInt 0⟩
    «end» := ⟨F32.ofQ 1 4, F32.ofQ 1 4, F32.ofQ 1 1000000⟩ }

/-- A triangle with integer vertices in a slanted plane. -/
def slantedTriangle : Triangle F32 :=
  { p1 := ⟨F32.ofInt 36, F32.ofInt (-29), F32.ofInt 35⟩
    p2 := ⟨F32.ofInt (-64), F32.ofInt 63, F32.ofInt (-1)⟩
    p3 := ⟨F32.ofInt 0, F32.ofInt (-37), F32.ofInt (-61)⟩ }

/-- A segment with integer endpoints, both inside `slantedTriangle`. -/
def slantedSegment : LineSegment F32 :=
  { start := ⟨F32.ofInt 2, F32.ofInt (-8), F32.ofInt 2⟩
    «end» := ⟨F32.ofInt (-23), F32.ofInt 15, F32.ofInt (-7)⟩ }

/-- A triangle whose binary32 vertices `(0, -2⁻²⁴, 1)`, `(1, 1, 1)` and
`(-3, -(3 + 2⁻²²), 1)` lie on one line. -/
def thinTriangle : Triangle F32 :=
  { p1 := ⟨F32.ofInt 0, F32.ofQ (-1) 16777216, F32.ofInt 1⟩
    p2 := ⟨F32.ofInt 1, F32.ofInt 1, F32.ofInt 1⟩
    p3 := ⟨F32.ofInt (-3), F32.ofQ (-12582913) 4194304, F32.ofInt 1⟩ }

/-- A vertical segment through the vertex `p1` of `thinTriangle`. -/
def thinSegment : LineSegment F32 :=
  { start := ⟨F32.ofInt 0, F32.ofQ (-1) 16777216, F32.ofInt 0⟩
    «end» := ⟨F32.ofInt 0, F32.ofQ (-1) 16777216, F32.ofInt 2⟩ }

end Float32

/-- The point `p` is `p1 + u * (p2 - p1) + v * (p3 - p1)` for the three
vertices given, in exact rational arithmetic. -/
def IsPointAt (p1 p2 p3 p : Vector3 ℚ) (u v : ℚ) : Prop :=
  p.x = p1.x + u * (p2.x - p1.x) + v * (p3.x - p1.x) ∧
  p.y = p1.y + u * (p2.y - p1.y) + v * (p3.y - p1.y) ∧
  p.z = p1.z + u * (p2.z - p1.z) + v * (p3.z - p1.z)

/-! ## Matrix algebra -/

section MatrixLemmas

variable {α : Type} [LinearOrderedField α]

theorem Multiply_m (m1 m2 : Matrix4x4 α) (i j : Fin 4) :
    (Multiply m1 m2).m i j =
      0 + m1.m i 0 * m2.m 0 j + m1.m i 1 * m2.m 1 j + m1.m i 2 * m2.m 2 j
        + m1.m i 3 * m2.m 3 j := by
  simp [Multiply, Fin.foldl_succ]
  rfl

theorem Inverse_m (M : Matrix4x4 α) :
    (Inverse M).m = fun i j =>
      if j = 3 then (if i = 3 then 1 else 0)
      else if i = 3 then
        -M.m 3 0 * M.m j 0 - M.m 3 1 * M.m j 1 - M.m 3 2 * M.m j 2
      else M.m j i := by
  funext i j
  fin_cases i <;> fin_cases j <;> simp [Inverse, Matrix4x4.set, MakeIdentity4x4]

theorem sampleRigid_isRigid : IsRigid sampleRigid := by
  refine ⟨?_, ?_, ?_, ?_, ?_⟩
  · intro i j hi hj
    fin_cases i <;> fin_cases j <;> simp [sampleRigid] at hi hj ⊢
  all_goals simp [sampleRigid]

end MatrixLemmas

/-! ## The collision predicate -/

section CollisionLemmas

variable {α : Type} [LinearOrderedField α]

/-- The body of `IsCollision` written with its local variables as functions. -/
theorem IsCollision_eq (sqrt : α → α) (seg : LineSegment α) (tri : Triangle α) :
    IsCollision sqrt seg tri =
      if abs (dot_n_ld sqrt seg tri) < kEpsilon then false
      else if planeT sqrt seg tri < 0 ∨ planeT sqrt seg tri > 1 then false
      else if abs (denominator tri) < kEpsilon then false
      else decide (baryU sqrt seg tri ≥ 0) && decide (baryV sqrt seg tri ≥ 0)
        && decide (baryU sqrt seg tri + baryV sqrt seg tri ≤ 1) := by
  simp only [IsCollision, ite_self]
  rfl

/-- The conditions under which `IsCollision` returns `true`. -/
theorem IsCollision_eq_true_iff (sqrt : α → α) (seg : LineSegment α) (tri : Triangle α) :
    IsCollision sqrt seg tri = true ↔
      kEpsilon ≤ abs (dot_n_ld sqrt seg tri) ∧
      0 ≤ planeT sqrt seg tri ∧ planeT sqrt seg tri ≤ 1 ∧
      kEpsilon ≤ abs (denominator tri) ∧
      0 ≤ baryU sqrt seg tri ∧ 0 ≤ baryV sqrt seg tri ∧
      baryU sqrt seg tri + baryV sqrt seg tri ≤ 1 := by
  rw [IsCollision_eq]
  by_cases h1 : abs (dot_n_ld sqrt seg tri) < kEpsilon
  · simp [h1]
  · by_cases h2 : planeT sqrt seg tri < 0 ∨ planeT sqrt seg tri > 1
    · rw [if_neg h1, if_pos h2]
      rcases h2 with h2 | h2
      · simp [h2]
      · simp only [gt_iff_lt] at h2
        simp [h2]
    · by_cases h3 : abs (denominator tri) < kEpsilon
      · simp [h1, h2, h3]
      · rw [if_neg h1, if_neg h2, if_neg h3]
        push_neg at h1 h2 h3
        simp [h1, h2.1, h2.2, h3, and_assoc]

theorem kEpsilon_pos : (0 : α) < kEpsilon := by
  unfold kEpsilon
  positivity

theorem Dot_Cross_left (a b : Vector3 α) : Dot (Cross a b) a = 0 := by
  simp only [Dot, Cross]
  ring

theorem Dot_Cross_right (a b : Vector3 α) : Dot (Cross a b) b = 0 := by
  simp only [Dot, Cross]
  ring

/-- Plane parameter times `dot_n_ld` puts the intersection point on the plane. -/
theorem Dot_normal_apVec (sqrt : α → α) (seg : LineSegment α) (tri : Triangle α)
    (h : dot_n_ld sqrt seg tri ≠ 0) : Dot (normal sqrt tri) (apVec sqrt seg tri) = 0 := by
  have ht : planeT sqrt seg tri * dot_n_ld sqrt seg tri
      = distance sqrt tri - Dot (normal sqrt tri) seg.start := by
    unfold planeT
    field_simp
  have hexp : Dot (normal sqrt tri) (apVec sqrt seg tri)
      = Dot (normal sqrt tri) seg.start + planeT sqrt seg tri * dot_n_ld sqrt seg tri
          - distance sqrt tri := by
    simp only [Dot, apVec, intersectionPoint, dot_n_ld, distance, lineDirection]
    ring
  rw [hexp, ht]
  ring

/-- Any vector `w` splits along `a`, `b` and `Cross a b`; shown per component. -/
theorem split_x (a b w : Vector3 α) :
    (Dot a a * Dot b b - Dot a b * Dot a b) * w.x =
      (Dot b b * Dot w a - Dot a b * Dot w b) * a.x
        + (Dot a a * Dot w b - Dot a b * Dot w a) * b.x
        + Dot (Cross a b) w * (Cross a b).x := by
  simp only [Dot, Cross]
  ring

theorem split_y (a b w : Vector3 α) :
    (Dot a a * Dot b b - Dot a b * Dot a b) * w.y =
      (Dot b b * Dot w a - Dot a b * Dot w b) * a.y
        + (Dot a a * Dot w b - Dot a b * Dot w a) * b.y
        + Dot (Cross a b) w * (Cross a b).y := by
  simp only [Dot, Cross]
  ring

theorem split_z (a b w : Vector3 α) :
    (Dot a a * Dot b b - Dot a b * Dot a b) * w.z =
      (Dot b b * Dot w a - Dot a b * Dot w b) * a.z
        + (Dot a a * Dot w b - Dot a b * Dot w a) * b.z
        + Dot (Cross a b) w * (Cross a b).z := by
  simp only [Dot, Cross]
  ring

/-- With a nonzero denominator, a vector orthogonal to `Cross edge1 edge2` is
`u * edge1 + v * edge2` for the `u`, `v` that `IsCollision` computes. -/
theorem apVec_eq_of_orthogonal (sqrt : α → α) (seg : LineSegment α) (tri : Triangle α)
    (hd : denominator tri ≠ 0)
    (ho : Dot (Cross (edge1 tri) (edge2 tri)) (apVec sqrt seg tri) = 0) :
    (apVec sqrt seg tri).x
        = baryU sqrt seg tri * (edge1 tri).x + baryV sqrt seg tri * (edge2 tri).x ∧
    (apVec sqrt seg tri).y
        = baryU sqrt seg tri * (edge1 tri).y + baryV sqrt seg tri * (edge2 tri).y ∧
    (apVec sqrt seg tri).z
        = baryU sqrt seg tri * (edge1 tri).z + baryV sqrt seg tri * (edge2 tri).z := by
  have hx := split_x (edge1 tri) (edge2 tri) (apVec sqrt seg tri)
  have hy := split_y (edge1 tri) (edge2 tri) (apVec sqrt seg tri)
  have hz := split_z (edge1 tri) (edge2 tri) (apVec sqrt seg tri)
  rw [ho, zero_mul, add_zero] at hx hy hz
  have hd2 : Dot (edge1 tri) (edge1 tri) * Dot (edge2 tri) (edge2 tri)
      - Dot (edge1 tri) (edge2 tri) * Dot (edge1 tri) (edge2 tri) ≠ 0 := hd
  refine ⟨?_, ?_, ?_⟩
  · unfold baryU baryV denominator
    field_simp
    linear_combination hx
  · unfold baryU baryV denominator
    field_simp
    linear_combination hy
  · unfold baryU baryV denominator
    field_simp
    linear_combination hz

/-- Conversely, if `ap = u * edge1 + v * edge2` and the denominator is nonzero,
the `u`, `v` that `IsCollision` computes are these coefficients. -/
theorem bary_of_apVec_eq (sqrt : α → α) (seg : LineSegment α) (tri : Triangle α) (u v : α)
    (hd : denominator tri ≠ 0)
    (hx : (apVec sqrt seg tri).x = u * (edge1 tri).x + v * (edge2 tri).x)
    (hy : (apVec sqrt seg tri).y = u * (edge1 tri).y + v * (edge2 tri).y)
    (hz : (apVec sqrt seg tri).z = u * (edge1 tri).z + v * (edge2 tri).z) :
    baryU sqrt seg tri = u ∧ baryV sqrt seg tri = v := by
  constructor
  · unfold baryU
    rw [div_eq_iff hd]
    simp only [denominator, Dot, hx, hy, hz]
    ring
  · unfold baryV
    rw [div_eq_iff hd]
    simp only [denominator, Dot, hx, hy, hz]
    ring

/-- If the point at parameter `t` of the segment is `p1 + u * edge1 + v * edge2`
and `dot_n_ld` is nonzero, with a normal orthogonal to both edges, then the
plane parameter that `IsCollision` computes is `t`. -/
theorem planeT_of_point_eq (sqrt : α → α) (seg : LineSegment α) (tri : Triangle α) (t u v : α)
    (hn : dot_n_ld sqrt seg tri ≠ 0)
    (h1 : Dot (normal sqrt tri) (edge1 tri) = 0) (h2 : Dot (normal sqrt tri) (edge2 tri) = 0)
    (hx : seg.start.x + t * (seg.end.x - seg.start.x)
        = tri.p1.x + u * (tri.p2.x - tri.p1.x) + v * (tri.p3.x - tri.p1.x))
    (hy : seg.start.y + t * (seg.end.y - seg.start.y)
        = tri.p1.y + u * (tri.p2.y - tri.p1.y) + v * (tri.p3.y - tri.p1.y))
    (hz : seg.start.z + t * (seg.end.z - seg.start.z)
        = tri.p1.z + u * (tri.p2.z - tri.p1.z) + v * (tri.p3.z - tri.p1.z)) :
    planeT sqrt seg tri = t := by
  unfold planeT
  rw [div_eq_iff hn]
  simp only [dot_n_ld, distance, Dot, lineDirection, edge1, edge2] at h1 h2 ⊢
  linear_combination (-(normal sqrt tri).x) * hx - (normal sqrt tri).y * hy
    - (normal sqrt tri).z * hz - u * h1 - v * h2

end CollisionLemmas

section RealLemmas

/-- The normal is the cross product divided by its length (also when the
length is zero, where both sides are zero). -/
theorem Dot_normal (tri : Triangle ℝ) (w : Vector3 ℝ) :
    Dot (normal Real.sqrt tri) w
      = Dot (Cross (edge1 tri) (edge2 tri)) w
          / Real.sqrt (Dot (Cross (edge1 tri) (edge2 tri)) (Cross (edge1 tri) (edge2 tri))) := by
  unfold normal Normalize
  by_cases hL : Real.sqrt ((Cross (edge1 tri) (edge2 tri)).x * (Cross (edge1 tri) (edge2 tri)).x
      + (Cross (edge1 tri) (edge2 tri)).y * (Cross (edge1 tri) (edge2 tri)).y
      + (Cross (edge1 tri) (edge2 tri)).z * (Cross (edge1 tri) (edge2 tri)).z) = 0
  · simp only [hL, if_true]
    simp [Dot, hL]
  · simp only [hL, if_false]
    simp only [Dot]
    field_simp

/-- Where `dot_n_ld` is nonzero, the normal and the cross product have the same
orthogonal vectors. -/
theorem Dot_Cross_eq_zero_of_normal (seg : LineSegment ℝ) (tri : Triangle ℝ) (w : Vector3 ℝ)
    (h : dot_n_ld Real.sqrt seg tri ≠ 0) (hw : Dot (normal Real.sqrt tri) w = 0) :
    Dot (Cross (edge1 tri) (edge2 tri)) w = 0 := by
  rw [Dot_normal] at hw
  unfold dot_n_ld at h
  rw [Dot_normal] at h
  have hL : Real.sqrt (Dot (Cross (edge1 tri) (edge2 tri)) (Cross (edge1 tri) (edge2 tri))) ≠ 0 := by
    intro h0
    apply h
    rw [h0, div_zero]
  rcases div_eq_zero_iff.mp hw with h1 | h1
  · exact h1
  · exact absurd h1 hL

theorem ne_zero_of_kEpsilon_le_abs {α : Type} [LinearOrderedField α] {a : α}
    (h : kEpsilon ≤ abs a) : a ≠ 0 := by
  intro h0
  rw [h0, abs_zero] at h
  exact absurd h (not_le.mpr kEpsilon_pos)

theorem Dot_normal_edge1 (tri : Triangle ℝ) : Dot (normal Real.sqrt tri) (edge1 tri) = 0 := by
  rw [Dot_normal, Dot_Cross_left, zero_div]

theorem Dot_normal_edge2 (tri : Triangle ℝ) : Dot (normal Real.sqrt tri) (edge2 tri) = 0 := by
  rw [Dot_normal, Dot_Cross_right, zero_div]

/-- Completeness in terms of the local variables: outside the two guards, a
common point of segment and triangle makes `IsCollision` compute its
parameters and return `true`. -/
theorem IsCollision_of_point (seg : LineSegment ℝ) (tri : Triangle ℝ)
    (hn : kEpsilon ≤ abs (dot_n_ld Real.sqrt seg tri))
    (hd : kEpsilon ≤ abs (denominator tri))
    (t u v : ℝ) (ht0 : 0 ≤ t) (ht1 : t ≤ 1) (hu : 0 ≤ u) (hv : 0 ≤ v) (huv : u + v ≤ 1)
    (hx : seg.start.x + t * (seg.end.x - seg.start.x)
        = tri.p1.x + u * (tri.p2.x - tri.p1.x) + v * (tri.p3.x - tri.p1.x))
    (hy : seg.start.y + t * (seg.end.y - seg.start.y)
        = tri.p1.y + u * (tri.p2.y - tri.p1.y) + v * (tri.p3.y - tri.p1.y))
    (hz : seg.start.z + t * (seg.end.z - seg.start.z)
        = tri.p1.z + u * (tri.p2.z - tri.p1.z) + v * (tri.p3.z - tri.p1.z)) :
    IsCollision Real.sqrt seg tri = true ∧ planeT Real.sqrt seg tri = t ∧
      baryU Real.sqrt seg tri = u ∧ baryV Real.sqrt seg tri = v := by
  have hn0 := ne_zero_of_kEpsilon_le_abs hn
  have hd0 := ne_zero_of_kEpsilon_le_abs hd
  have hT := planeT_of_point_eq Real.sqrt seg tri t u v hn0 (Dot_normal_edge1 tri)
    (Dot_normal_edge2 tri) hx hy hz
  have hax : (apVec Real.sqrt seg tri).x = u * (edge1 tri).x + v * (edge2 tri).x := by
    simp only [apVec, intersectionPoint, lineDirection, edge1, edge2, hT]
    linear_combination hx
  have hay : (apVec Real.sqrt seg tri).y = u * (edge1 tri).y + v * (edge2 tri).y := by
    simp only [apVec, intersectionPoint, lineDirection, edge1, edge2, hT]
    linear_combination hy
  have haz : (apVec Real.sqrt seg tri).z = u * (edge1 tri).z + v * (edge2 tri).z := by
    simp only [apVec, intersectionPoint, lineDirection, edge1, edge2, hT]
    linear_combination hz
  obtain ⟨hU, hV⟩ := bary_of_apVec_eq Real.sqrt seg tri u v hd0 hax hay haz
  refine ⟨?_, hT, hU, hV⟩
  rw [IsCollision_eq_true_iff, hT, hU, hV]
  exact ⟨hn, ht0, ht1, hd, hu, hv, huv⟩

/-- The normal of `unitTriangle` is the z axis. -/
theorem Dot_normal_unitTriangle (w : Vector3 ℝ) :
    Dot (normal Real.sqrt (unitTriangle : Triangle ℝ)) w = w.z := by
  simp [normal, Normalize, Cross, Dot, edge1, edge2, unitTriangle]

theorem denominator_unitTriangle :
    Dot (edge1 (unitTriangle : Triangle ℝ)) (edge1 unitTriangle)
        * Dot (edge2 (unitTriangle : Triangle ℝ)) (edge2 unitTriangle)
      - Dot (edge1 (unitTriangle : Triangle ℝ)) (edge2 unitTriangle)
        * Dot (edge1 (unitTriangle : Triangle ℝ)) (edge2 unitTriangle) = 1 := by
  simp [Dot, edge1, edge2, unitTriangle]

theorem collinearTriangle_collinear :
    Collinear3 (collinearTriangle : Triangle ℝ).p1 collinearTriangle.p2 collinearTriangle.p3 := by
  refine ⟨⟨0, 0, 0⟩, ⟨1, 0, 0⟩, 0, 1, 2, ?_⟩
  simp [collinearTriangle]

/-- The sample segment hits the sample triangle. -/
theorem IsCollision_crossing_unit :
    IsCollision Real.sqrt (crossingSegment : LineSegment ℝ) unitTriangle = true := by
  rw [IsCollision_eq_true_iff]
  simp only [dot_n_ld, planeT, baryU, baryV, denominator, apVec, intersectionPoint, distance,
    normal, Normalize, lineDirection, edge1, edge2, Cross, Dot, crossingSegment, unitTriangle,
    kEpsilon]
  norm_num

end RealLemmas

/-- C1: soundness of `IsCollision` over the reals. If `IsCollision(segment,
triangle)` returns true, there are `t` in `[0, 1]` and `u ≥ 0`, `v ≥ 0` with
`u + v ≤ 1` such that `start + t * (end - start) = p1 + u * (p2 - p1) + v * (p3 - p1)`
(component by component): a point of the finite segment lies in the closed
triangle. -/
theorem IsCollision_sound (seg : LineSegment ℝ) (tri : Triangle ℝ)
    (h : IsCollision Real.sqrt seg tri = true) :
    ∃ t u v : ℝ, 0 ≤ t ∧ t ≤ 1 ∧ 0 ≤ u ∧ 0 ≤ v ∧ u + v ≤ 1 ∧
      seg.start.x + t * (seg.end.x - seg.start.x)
        = tri.p1.x + u * (tri.p2.x - tri.p1.x) + v * (tri.p3.x - tri.p1.x) ∧
      seg.start.y + t * (seg.end.y - seg.start.y)
        = tri.p1.y + u * (tri.p2.y - tri.p1.y) + v * (tri.p3.y - tri.p1.y) ∧
      seg.start.z + t * (seg.end.z - seg.start.z)
        = tri.p1.z + u * (tri.p2.z - tri.p1.z) + v * (tri.p3.z - tri.p1.z) := by
  obtain ⟨hn, ht0, ht1, hd, hu, hv, huv⟩ := (IsCollision_eq_true_iff _ _ _).mp h
  have hn0 := ne_zero_of_kEpsilon_le_abs hn
  have hd0 := ne_zero_of_kEpsilon_le_abs hd
  have ho := Dot_Cross_eq_zero_of_normal seg tri _ hn0 (Dot_normal_apVec Real.sqrt seg tri hn0)
  obtain ⟨hx, hy, hz⟩ := apVec_eq_of_orthogonal Real.sqrt seg tri hd0 ho
  refine ⟨planeT Real.sqrt seg tri, baryU Real.sqrt seg tri, baryV Real.sqrt seg tri,
    ht0, ht1, hu, hv, huv, ?_, ?_, ?_⟩
  · simp only [apVec, intersectionPoint, lineDirection, edge1, edge2] at hx
    linear_combination hx
  · simp only [apVec, intersectionPoint, lineDirection, edge1, edge2] at hy
    linear_combination hy
  · simp only [apVec, intersectionPoint, lineDirection, edge1, edge2] at hz
    linear_combination hz

/-- The theorem `IsCollision_sound` at the triangle `(0,0,0), (1,0,0), (0,1,0)`
and the segment from `(1/4, 1/4, -1)` to `(1/4, 1/4, 1)`. -/
theorem IsCollision_sound_witness :
    IsCollision Real.sqrt (crossingSegment : LineSegment ℝ) unitTriangle = true ∧
    ∃ t u v : ℝ, 0 ≤ t ∧ t ≤ 1 ∧ 0 ≤ u ∧ 0 ≤ v ∧ u + v ≤ 1 ∧
      (crossingSegment : LineSegment ℝ).start.x
          + t * ((crossingSegment : LineSegment ℝ).end.x - (crossingSegment : LineSegment ℝ).start.x)
        = (unitTriangle : Triangle ℝ).p1.x
          + u * ((unitTriangle : Triangle ℝ).p2.x - (unitTriangle : Triangle ℝ).p1.x)
          + v * ((unitTriangle : Triangle ℝ).p3.x - (unitTriangle : Triangle ℝ).p1.x) ∧
      (crossingSegment : LineSegment ℝ).start.y
          + t * ((crossingSegment : LineSegment ℝ).end.y - (crossingSegment : LineSegment ℝ).start.y)
        = (unitTriangle : Triangle ℝ).p1.y
          + u * ((unitTriangle : Triangle ℝ).p2.y - (unitTriangle : Triangle ℝ).p1.y)
          + v * ((unitTriangle : Triangle ℝ).p3.y - (unitTriangle : Triangle ℝ).p1.y) ∧
      (crossingSegment : LineSegment ℝ).start.z
          + t * ((crossingSegment : LineSegment ℝ).end.z - (crossingSegment : LineSegment ℝ).start.z)
        = (unitTriangle : Triangle ℝ).p1.z
          + u * ((unitTriangle : Triangle ℝ).p2.z - (unitTriangle : Triangle ℝ).p1.z)
          + v * ((unitTriangle : Triangle ℝ).p3.z - (unitTriangle : Triangle ℝ).p1.z) :=
  ⟨IsCollision_crossing_unit,
    IsCollision_sound crossingSegment unitTriangle IsCollision_crossing_unit⟩

/-- C2: completeness of `IsCollision` outside its two epsilon guards, over the
reals. If `|Dot(normal, end - start)| ≥ 1e-6` and the barycentric denominator
`dot_ab_ab * dot_ac_ac - dot_ab_ac²` is `≥ 1e-6`, and some point
`start + t * (end - start)` with `0 ≤ t ≤ 1` equals
`p1 + u * (p2 - p1) + v * (p3 - p1)` with `u ≥ 0`, `v ≥ 0`, `u + v ≤ 1`, then
`IsCollision` returns true. -/
theorem IsCollision_complete (seg : LineSegment ℝ) (tri : Triangle ℝ)
    (hn : kEpsilon ≤ abs (Dot (normal Real.sqrt tri) (lineDirection seg)))
    (hd : kEpsilon ≤ Dot (edge1 tri) (edge1 tri) * Dot (edge2 tri) (edge2 tri)
      - Dot (edge1 tri) (edge2 tri) * Dot (edge1 tri) (edge2 tri))
    (t u v : ℝ) (ht0 : 0 ≤ t) (ht1 : t ≤ 1) (hu : 0 ≤ u) (hv : 0 ≤ v) (huv : u + v ≤ 1)
    (hx : seg.start.x + t * (seg.end.x - seg.start.x)
        = tri.p1.x + u * (tri.p2.x - tri.p1.x) + v * (tri.p3.x - tri.p1.x))
    (hy : seg.start.y + t * (seg.end.y - seg.start.y)
        = tri.p1.y + u * (tri.p2.y - tri.p1.y) + v * (tri.p3.y - tri.p1.y))
    (hz : seg.start.z + t * (seg.end.z - seg.start.z)
        = tri.p1.z + u * (tri.p2.z - tri.p1.z) + v * (tri.p3.z - tri.p1.z)) :
    IsCollision Real.sqrt seg tri = true :=
  (IsCollision_of_point seg tri hn (le_trans hd (le_abs_self _)) t u v ht0 ht1 hu hv huv
    hx hy hz).1

/-- The theorem `IsCollision_complete` at the triangle `(0,0,0), (1,0,0), (0,1,0)`
and the segment from `(1/4, 1/4, -1)` to `(1/4, 1/4, 1)`, whose midpoint
(`t = 1/2`) is the triangle point with `u = v = 1/4`. -/
theorem IsCollision_complete_witness :
    kEpsilon ≤ abs (Dot (normal Real.sqrt (unitTriangle : Triangle ℝ))
      (lineDirection crossingSegment)) ∧
    kEpsilon ≤ Dot (edge1 (unitTriangle : Triangle ℝ)) (edge1 unitTriangle)
        * Dot (edge2 (unitTriangle : Triangle ℝ)) (edge2 unitTriangle)
      - Dot (edge1 (unitTriangle : Triangle ℝ)) (edge2 unitTriangle)
        * Dot (edge1 (unitTriangle : Triangle ℝ)) (edge2 unitTriangle) ∧
    IsCollision Real.sqrt (crossingSegment : LineSegment ℝ) unitTriangle = true :=
  have hn : kEpsilon ≤ abs (Dot (normal Real.sqrt (unitTriangle : Triangle ℝ))
      (lineDirection crossingSegment)) := by
    rw [Dot_normal_unitTriangle]
    norm_num [lineDirection, crossingSegment, kEpsilon]
  have hd : kEpsilon ≤ Dot (edge1 (unitTriangle : Triangle ℝ)) (edge1 unitTriangle)
        * Dot (edge2 (unitTriangle : Triangle ℝ)) (edge2 unitTriangle)
      - Dot (edge1 (unitTriangle : Triangle ℝ)) (edge2 unitTriangle)
        * Dot (edge1 (unitTriangle : Triangle ℝ)) (edge2 unitTriangle) := by
    rw [denominator_unitTriangle]
    norm_num [kEpsilon]
  ⟨hn, hd, IsCollision_complete crossingSegment unitTriangle hn hd (1 / 2) (1 / 4) (1 / 4)
    (by norm_num) (by norm_num) (by norm_num) (by norm_num) (by norm_num)
    (by norm_num [crossingSegment, unitTriangle])
    (by norm_num [crossingSegment, unitTriangle])
    (by norm_num [crossingSegment, unitTriangle])⟩

/-- C3: for the repository's default triangle `(-1,0,1), (0,1,0), (1,0,1)`
and default segment `(-2,1,-1) → (0,1,1)`, `IsCollision` returns false: the segment
is not parallel to the plane, `t = 1/2`, the intersection point is `(-1,1,0)`,
the barycentric denominator is `8`, `u = 1` and `v = -1/2`, so the test
`v ≥ 0` fails. -/
theorem IsCollision_default :
    IsCollision Real.sqrt (defaultLineSegment : LineSegment ℝ) defaultTriangle = false ∧
    ¬ abs (dot_n_ld Real.sqrt (defaultLineSegment : LineSegment ℝ) defaultTriangle) < kEpsilon ∧
    planeT Real.sqrt (defaultLineSegment : LineSegment ℝ) defaultTriangle = 1 / 2 ∧
    intersectionPoint Real.sqrt (defaultLineSegment : LineSegment ℝ) defaultTriangle
      = ⟨-1, 1, 0⟩ ∧
    denominator (defaultTriangle : Triangle ℝ) = 8 ∧
    baryU Real.sqrt (defaultLineSegment : LineSegment ℝ) defaultTriangle = 1 ∧
    baryV Real.sqrt (defaultLineSegment : LineSegment ℝ) defaultTriangle = -1 / 2 ∧
    ¬ baryV Real.sqrt (defaultLineSegment : LineSegment ℝ) defaultTriangle ≥ 0 := by
  have hc : Cross (edge1 (defaultTriangle : Triangle ℝ)) (edge2 defaultTriangle)
      = ⟨0, -2, -2⟩ := by
    simp only [Cross, edge1, edge2, defaultTriangle]
    norm_num
  have hcc : Dot (⟨0, -2, -2⟩ : Vector3 ℝ) ⟨0, -2, -2⟩ = 8 := by
    simp only [Dot]
    norm_num
  have hL : (0 : ℝ) < Real.sqrt 8 := Real.sqrt_pos.mpr (by norm_num)
  have hL3 : Real.sqrt 8 ≤ 3 := by
    rw [Real.sqrt_le_left (by norm_num)]
    norm_num
  have hdn : dot_n_ld Real.sqrt (defaultLineSegment : LineSegment ℝ) defaultTriangle
      = -4 / Real.sqrt 8 := by
    unfold dot_n_ld
    rw [Dot_normal, hc, hcc]
    simp only [Dot, lineDirection, defaultLineSegment]
    norm_num
  have ht : planeT Real.sqrt (defaultLineSegment : LineSegment ℝ) defaultTriangle = 1 / 2 := by
    unfold planeT distance
    rw [hdn, Dot_normal, Dot_normal, hc, hcc]
    simp only [Dot, defaultLineSegment, defaultTriangle]
    field_simp
    ring
  have hp : intersectionPoint Real.sqrt (defaultLineSegment : LineSegment ℝ) defaultTriangle
      = ⟨-1, 1, 0⟩ := by
    simp only [intersectionPoint, ht]
    simp only [lineDirection, defaultLineSegment]
    norm_num
  have hden : denominator (defaultTriangle : Triangle ℝ) = 8 := by
    simp only [denominator, Dot, edge1, edge2, defaultTriangle]
    norm_num
  have hu : baryU Real.sqrt (defaultLineSegment : LineSegment ℝ) defaultTriangle = 1 := by
    simp only [baryU, apVec, hp, hden]
    simp only [Dot, edge1, edge2, defaultTriangle]
    norm_num
  have hv : baryV Real.sqrt (defaultLineSegment : LineSegment ℝ) defaultTriangle = -1 / 2 := by
    simp only [baryV, apVec, hp, hden]
    simp only [Dot, edge1, edge2, defaultTriangle]
    norm_num
  have hneg : ¬ baryV Real.sqrt (defaultLineSegment : LineSegment ℝ) defaultTriangle ≥ 0 := by
    rw [hv]
    norm_num
  refine ⟨?_, ?_, ht, hp, hden, hu, hv, hneg⟩
  · rw [Bool.eq_false_iff]
    intro h
    exact hneg ((IsCollision_eq_true_iff _ _ _).mp h).2.2.2.2.2.1
  · rw [hdn, not_lt, abs_div, abs_of_pos hL, le_div_iff₀ hL]
    unfold kEpsilon
    norm_num
    linarith

/-- C4, as amended: in exact real arithmetic and with the threshold `kEpsilon`
(the value of `1e-6f`, just below `10⁻⁶`), if `|Dot(normal, end - start)| < kEpsilon`,
with `normal = Normalize(Cross(p2 - p1, p3 - p1))`, then `IsCollision` returns
false; in particular it returns false when both endpoints lie exactly on the
triangle's plane, whether or not the segment passes through the triangle. -/
theorem IsCollision_parallel (seg : LineSegment ℝ) (tri : Triangle ℝ)
    (h : abs (Dot (Normalize Real.sqrt (Cross (edge1 tri) (edge2 tri))) (lineDirection seg))
        < kEpsilon ∨
      (Dot (Normalize Real.sqrt (Cross (edge1 tri) (edge2 tri))) seg.start
          = Dot (Normalize Real.sqrt (Cross (edge1 tri) (edge2 tri))) tri.p1 ∧
        Dot (Normalize Real.sqrt (Cross (edge1 tri) (edge2 tri))) seg.end
          = Dot (Normalize Real.sqrt (Cross (edge1 tri) (edge2 tri))) tri.p1)) :
    IsCollision Real.sqrt seg tri = false := by
  have hlt : abs (dot_n_ld Real.sqrt seg tri) < kEpsilon := by
    rcases h with h | ⟨hs, he⟩
    · exact h
    · have hz : dot_n_ld Real.sqrt seg tri = 0 := by
        have hd : dot_n_ld Real.sqrt seg tri
            = Dot (Normalize Real.sqrt (Cross (edge1 tri) (edge2 tri))) seg.end
              - Dot (Normalize Real.sqrt (Cross (edge1 tri) (edge2 tri))) seg.start := by
          simp only [dot_n_ld, normal, Dot, lineDirection]
          ring
        rw [hd, hs, he, sub_self]
      rw [hz, abs_zero]
      exact kEpsilon_pos
  rw [IsCollision_eq]
  exact if_pos hlt

/-- The theorem `IsCollision_parallel` at a coplanar overlap: the triangle
`(0,0,0), (1,0,0), (0,1,0)` and the segment from `(-1, 1/4, 0)` to `(1, 1/4, 0)`,
which lies in the triangle's plane and passes through its interior. -/
theorem IsCollision_parallel_witness :
    (abs (Dot (Normalize Real.sqrt (Cross (edge1 (unitTriangle : Triangle ℝ)) (edge2 unitTriangle)))
        (lineDirection coplanarSegment)) < kEpsilon ∨
      (Dot (Normalize Real.sqrt (Cross (edge1 (unitTriangle : Triangle ℝ)) (edge2 unitTriangle)))
          (coplanarSegment : LineSegment ℝ).start
          = Dot (Normalize Real.sqrt (Cross (edge1 (unitTriangle : Triangle ℝ))
              (edge2 unitTriangle))) (unitTriangle : Triangle ℝ).p1 ∧
        Dot (Normalize Real.sqrt (Cross (edge1 (unitTriangle : Triangle ℝ)) (edge2 unitTriangle)))
          (coplanarSegment : LineSegment ℝ).end
          = Dot (Normalize Real.sqrt (Cross (edge1 (unitTriangle : Triangle ℝ))
              (edge2 unitTriangle))) (unitTriangle : Triangle ℝ).p1)) ∧
    IsCollision Real.sqrt (coplanarSegment : LineSegment ℝ) unitTriangle = false :=
  have e : ∀ w : Vector3 ℝ,
      Dot (Normalize Real.sqrt (Cross (edge1 (unitTriangle : Triangle ℝ)) (edge2 unitTriangle))) w
        = w.z := Dot_normal_unitTriangle
  have h : abs (Dot (Normalize Real.sqrt
        (Cross (edge1 (unitTriangle : Triangle ℝ)) (edge2 unitTriangle)))
        (lineDirection coplanarSegment)) < kEpsilon ∨
      (Dot (Normalize Real.sqrt (Cross (edge1 (unitTriangle : Triangle ℝ)) (edge2 unitTriangle)))
          (coplanarSegment : LineSegment ℝ).start
          = Dot (Normalize Real.sqrt (Cross (edge1 (unitTriangle : Triangle ℝ))
              (edge2 unitTriangle))) (unitTriangle : Triangle ℝ).p1 ∧
        Dot (Normalize Real.sqrt (Cross (edge1 (unitTriangle : Triangle ℝ)) (edge2 unitTriangle)))
          (coplanarSegment : LineSegment ℝ).end
          = Dot (Normalize Real.sqrt (Cross (edge1 (unitTriangle : Triangle ℝ))
              (edge2 unitTriangle))) (unitTriangle : Triangle ℝ).p1) := by
    right
    rw [e, e, e]
    exact ⟨rfl, rfl⟩
  ⟨h, IsCollision_parallel coplanarSegment unitTriangle h⟩

/-- C5: if both endpoints of the segment lie strictly on the same side of the
triangle's plane (`Dot(normal, start) - distance` and `Dot(normal, end) - distance`
both `> 0` or both `< 0`), or the plane parameter `t` is `< 0` or `> 1`, then
`IsCollision` returns false, whether or not the infinite line through the
segment crosses the triangle. -/
theorem IsCollision_same_side (seg : LineSegment ℝ) (tri : Triangle ℝ)
    (h : (0 < Dot (normal Real.sqrt tri) seg.start - distance Real.sqrt tri ∧
          0 < Dot (normal Real.sqrt tri) seg.end - distance Real.sqrt tri) ∨
        (Dot (normal Real.sqrt tri) seg.start - distance Real.sqrt tri < 0 ∧
          Dot (normal Real.sqrt tri) seg.end - distance Real.sqrt tri < 0) ∨
        planeT Real.sqrt seg tri < 0 ∨ planeT Real.sqrt seg tri > 1) :
    IsCollision Real.sqrt seg tri = false := by
  rw [Bool.eq_false_iff]
  intro hc
  obtain ⟨hn, ht0, ht1, -⟩ := (IsCollision_eq_true_iff _ _ _).mp hc
  have hn0 := ne_zero_of_kEpsilon_le_abs hn
  have hmul : planeT Real.sqrt seg tri * dot_n_ld Real.sqrt seg tri
      = distance Real.sqrt tri - Dot (normal Real.sqrt tri) seg.start := by
    unfold planeT
    field_simp
  have hdn : dot_n_ld Real.sqrt seg tri
      = (Dot (normal Real.sqrt tri) seg.end - distance Real.sqrt tri)
        - (Dot (normal Real.sqrt tri) seg.start - distance Real.sqrt tri) := by
    simp only [dot_n_ld, Dot, lineDirection]
    ring
  rw [hdn] at hmul
  have key : planeT Real.sqrt seg tri
        * (Dot (normal Real.sqrt tri) seg.end - distance Real.sqrt tri)
      + (1 - planeT Real.sqrt seg tri)
        * (Dot (normal Real.sqrt tri) seg.start - distance Real.sqrt tri) = 0 := by
    linear_combination hmul
  have h1t : 0 ≤ 1 - planeT Real.sqrt seg tri := by linarith
  rcases h with ⟨h0, h1⟩ | ⟨h0, h1⟩ | h | h
  · rcases eq_or_lt_of_le ht0 with he | hl
    · rw [← he] at key
      linarith
    · have := mul_pos hl h1
      have := mul_nonneg h1t h0.le
      linarith
  · rcases eq_or_lt_of_le ht0 with he | hl
    · rw [← he] at key
      linarith
    · have := mul_pos hl (neg_pos.mpr h1)
      have := mul_nonneg h1t (neg_nonneg.mpr h0.le)
      linarith
  · linarith
  · linarith

/-- The theorem `IsCollision_same_side` at the triangle `(0,0,0), (1,0,0), (0,1,0)`
and the segment from `(1/4, 1/4, 1)` to `(1/4, 1/4, 2)`: both endpoints are
above the plane, and the line through them meets the triangle. -/
theorem IsCollision_same_side_witness :
    ((0 < Dot (normal Real.sqrt (unitTriangle : Triangle ℝ)) (aboveSegment : LineSegment ℝ).start
            - distance Real.sqrt (unitTriangle : Triangle ℝ) ∧
          0 < Dot (normal Real.sqrt (unitTriangle : Triangle ℝ)) (aboveSegment : LineSegment ℝ).end
            - distance Real.sqrt (unitTriangle : Triangle ℝ)) ∨
        (Dot (normal Real.sqrt (unitTriangle : Triangle ℝ)) (aboveSegment : LineSegment ℝ).start
            - distance Real.sqrt (unitTriangle : Triangle ℝ) < 0 ∧
          Dot (normal Real.sqrt (unitTriangle : Triangle ℝ)) (aboveSegment : LineSegment ℝ).end
            - distance Real.sqrt (unitTriangle : Triangle ℝ) < 0) ∨
        planeT Real.sqrt (aboveSegment : LineSegment ℝ) unitTriangle < 0 ∨
        planeT Real.sqrt (aboveSegment : LineSegment ℝ) unitTriangle > 1) ∧
    IsCollision Real.sqrt (aboveSegment : LineSegment ℝ) unitTriangle = false :=
  have h : (0 < Dot (normal Real.sqrt (unitTriangle : Triangle ℝ))
            (aboveSegment : LineSegment ℝ).start - distance Real.sqrt (unitTriangle : Triangle ℝ) ∧
          0 < Dot (normal Real.sqrt (unitTriangle : Triangle ℝ)) (aboveSegment : LineSegment ℝ).end
            - distance Real.sqrt (unitTriangle : Triangle ℝ)) ∨
        (Dot (normal Real.sqrt (unitTriangle : Triangle ℝ)) (aboveSegment : LineSegment ℝ).start
            - distance Real.sqrt (unitTriangle : Triangle ℝ) < 0 ∧
          Dot (normal Real.sqrt (unitTriangle : Triangle ℝ)) (aboveSegment : LineSegment ℝ).end
            - distance Real.sqrt (unitTriangle : Triangle ℝ) < 0) ∨
        planeT Real.sqrt (aboveSegment : LineSegment ℝ) unitTriangle < 0 ∨
        planeT Real.sqrt (aboveSegment : LineSegment ℝ) unitTriangle > 1 := by
    left
    unfold distance
    rw [Dot_normal_unitTriangle, Dot_normal_unitTriangle, Dot_normal_unitTriangle]
    norm_num [aboveSegment, unitTriangle]
  ⟨h, IsCollision_same_side aboveSegment unitTriangle h⟩

/-- C6, as amended: in exact real arithmetic, for every triangle whose three
vertices are collinear (coincident vertices included) and for every segment,
`IsCollision` returns false. -/
theorem IsCollision_collinear (seg : LineSegment ℝ) (tri : Triangle ℝ)
    (h : Collinear3 tri.p1 tri.p2 tri.p3) : IsCollision Real.sqrt seg tri = false := by
  obtain ⟨o, w, a, b, c, ⟨h1x, h1y, h1z⟩, ⟨h2x, h2y, h2z⟩, ⟨h3x, h3y, h3z⟩⟩ := h
  have hc : Cross (edge1 tri) (edge2 tri) = ⟨0, 0, 0⟩ := by
    simp only [Cross, edge1, edge2, h1x, h1y, h1z, h2x, h2y, h2z, h3x, h3y, h3z]
    ext
    · ring
    · ring
    · ring
  have hz : dot_n_ld Real.sqrt seg tri = 0 := by
    unfold dot_n_ld
    rw [Dot_normal, hc]
    simp [Dot]
  rw [IsCollision_eq, hz, abs_zero, if_pos kEpsilon_pos]

/-- The theorem `IsCollision_collinear` at the triangle `(0,0,0), (1,0,0), (2,0,0)`
and the segment from `(1/4, 1/4, -1)` to `(1/4, 1/4, 1)`. -/
theorem IsCollision_collinear_witness :
    Collinear3 (collinearTriangle : Triangle ℝ).p1 collinearTriangle.p2 collinearTriangle.p3 ∧
    IsCollision Real.sqrt (crossingSegment : LineSegment ℝ) collinearTriangle = false :=
  ⟨collinearTriangle_collinear,
    IsCollision_collinear crossingSegment collinearTriangle collinearTriangle_collinear⟩

/-- C7: the triangle test is boundary-inclusive. For every triangle with
barycentric denominator `≥ 1e-6` and every segment with
`|Dot(normal, end - start)| ≥ 1e-6` one of whose endpoints coincides with a
vertex `p1`, `p2` or `p3`, `IsCollision` returns true; the plane parameter `t`
is `0` or `1` and `(u, v)` is `(0,0)`, `(1,0)` or `(0,1)`. -/
theorem IsCollision_vertex (seg : LineSegment ℝ) (tri : Triangle ℝ)
    (hn : kEpsilon ≤ abs (Dot (normal Real.sqrt tri) (lineDirection seg)))
    (hd : kEpsilon ≤ denominator tri)
    (h : seg.start = tri.p1 ∨ seg.start = tri.p2 ∨ seg.start = tri.p3 ∨
      seg.end = tri.p1 ∨ seg.end = tri.p2 ∨ seg.end = tri.p3) :
    IsCollision Real.sqrt seg tri = true ∧
    (planeT Real.sqrt seg tri = 0 ∨ planeT Real.sqrt seg tri = 1) ∧
    ((baryU Real.sqrt seg tri = 0 ∧ baryV Real.sqrt seg tri = 0) ∨
      (baryU Real.sqrt seg tri = 1 ∧ baryV Real.sqrt seg tri = 0) ∨
      (baryU Real.sqrt seg tri = 0 ∧ baryV Real.sqrt seg tri = 1)) := by
  have hd2 : kEpsilon ≤ abs (denominator tri) := le_trans hd (le_abs_self _)
  rcases h with h | h | h | h | h | h
  · obtain ⟨hc, ht, hu, hv⟩ := IsCollision_of_point seg tri hn hd2 0 0 0 le_rfl zero_le_one
      le_rfl le_rfl (by norm_num) (by rw [h]; ring) (by rw [h]; ring) (by rw [h]; ring)
    exact ⟨hc, Or.inl ht, Or.inl ⟨hu, hv⟩⟩
  · obtain ⟨hc, ht, hu, hv⟩ := IsCollision_of_point seg tri hn hd2 0 1 0 le_rfl zero_le_one
      zero_le_one le_rfl (by norm_num) (by rw [h]; ring) (by rw [h]; ring) (by rw [h]; ring)
    exact ⟨hc, Or.inl ht, Or.inr (Or.inl ⟨hu, hv⟩)⟩
  · obtain ⟨hc, ht, hu, hv⟩ := IsCollision_of_point seg tri hn hd2 0 0 1 le_rfl zero_le_one
      le_rfl zero_le_one (by norm_num) (by rw [h]; ring) (by rw [h]; ring) (by rw [h]; ring)
    exact ⟨hc, Or.inl ht, Or.inr (Or.inr ⟨hu, hv⟩)⟩
  · obtain ⟨hc, ht, hu, hv⟩ := IsCollision_of_point seg tri hn hd2 1 0 0 zero_le_one le_rfl
      le_rfl le_rfl (by norm_num) (by rw [h]; ring) (by rw [h]; ring) (by rw [h]; ring)
    exact ⟨hc, Or.inr ht, Or.inl ⟨hu, hv⟩⟩
  · obtain ⟨hc, ht, hu, hv⟩ := IsCollision_of_point seg tri hn hd2 1 1 0 zero_le_one le_rfl
      zero_le_one le_rfl (by norm_num) (by rw [h]; ring) (by rw [h]; ring) (by rw [h]; ring)
    exact ⟨hc, Or.inr ht, Or.inr (Or.inl ⟨hu, hv⟩)⟩
  · obtain ⟨hc, ht, hu, hv⟩ := IsCollision_of_point seg tri hn hd2 1 0 1 zero_le_one le_rfl
      le_rfl zero_le_one (by norm_num) (by rw [h]; ring) (by rw [h]; ring) (by rw [h]; ring)
    exact ⟨hc, Or.inr ht, Or.inr (Or.inr ⟨hu, hv⟩)⟩

/-- The theorem `IsCollision_vertex` at the triangle `(0,0,0), (1,0,0), (0,1,0)`
and the segment from its vertex `p1 = (0,0,0)` to `(0,0,1)`. -/
theorem IsCollision_vertex_witness :
    kEpsilon ≤ abs (Dot (normal Real.sqrt (unitTriangle : Triangle ℝ))
      (lineDirection vertexSegment)) ∧
    kEpsilon ≤ denominator (unitTriangle : Triangle ℝ) ∧
    (vertexSegment : LineSegment ℝ).start = (unitTriangle : Triangle ℝ).p1 ∧
    IsCollision Real.sqrt (vertexSegment : LineSegment ℝ) unitTriangle = true :=
  have hn : kEpsilon ≤ abs (Dot (normal Real.sqrt (unitTriangle : Triangle ℝ))
      (lineDirection vertexSegment)) := by
    rw [Dot_normal_unitTriangle]
    norm_num [lineDirection, vertexSegment, kEpsilon]
  have hd : kEpsilon ≤ denominator (unitTriangle : Triangle ℝ) := by
    unfold denominator
    rw [denominator_unitTriangle]
    norm_num [kEpsilon]
  ⟨hn, hd, rfl, (IsCollision_vertex vertexSegment unitTriangle hn hd (Or.inl rfl)).1⟩

/-- C8: for every 4x4 matrix `M`, `Multiply(M, MakeIdentity4x4())` and
`Multiply(MakeIdentity4x4(), M)` both equal `M`, entry by entry. -/
theorem Multiply_identity {α : Type} [LinearOrderedField α] (M : Matrix4x4 α) :
    (∀ i j, (Multiply M MakeIdentity4x4).m i j = M.m i j) ∧
    (∀ i j, (Multiply MakeIdentity4x4 M).m i j = M.m i j) := by
  constructor
  · intro i j
    rw [Multiply_m]
    fin_cases j <;> simp [MakeIdentity4x4]
  · intro i j
    rw [Multiply_m]
    fin_cases i <;> simp [MakeIdentity4x4]

/-- C9: for every rigid transform `M` (upper-left 3x3 block with `R * Rᵀ = I`,
last column `(0,0,0,1)`, any translation in row 3), `Multiply(M, Inverse(M))`
equals `MakeIdentity4x4()`. -/
theorem Multiply_Inverse_of_rigid {α : Type} [LinearOrderedField α] (M : Matrix4x4 α)
    (h : IsRigid M) : Multiply M (Inverse M) = MakeIdentity4x4 := by
  obtain ⟨hR, h0, h1, h2, h3⟩ := h
  have h00 := hR 0 0 (by decide) (by decide)
  have h01 := hR 0 1 (by decide) (by decide)
  have h02 := hR 0 2 (by decide) (by decide)
  have h10 := hR 1 0 (by decide) (by decide)
  have h11 := hR 1 1 (by decide) (by decide)
  have h12 := hR 1 2 (by decide) (by decide)
  have h20 := hR 2 0 (by decide) (by decide)
  have h21 := hR 2 1 (by decide) (by decide)
  have h22 := hR 2 2 (by decide) (by decide)
  simp at h00 h01 h02 h10 h11 h12 h20 h21 h22
  ext i j
  rw [Multiply_m, Inverse_m]
  fin_cases i <;> fin_cases j <;>
    simp [MakeIdentity4x4, h0, h1, h2, h3] <;> assumption

/-- The theorem `Multiply_Inverse_of_rigid` at a quarter turn about z followed
by a translation. -/
theorem Multiply_Inverse_of_rigid_witness :
    IsRigid sampleRigid ∧ Multiply sampleRigid (Inverse sampleRigid) = MakeIdentity4x4 :=
  ⟨sampleRigid_isRigid, Multiply_Inverse_of_rigid sampleRigid sampleRigid_isRigid⟩

/-- C10: round trip. For every rigid transform `M` (upper-left 3x3 block with
`R * Rᵀ = I`, last column `(0,0,0,1)`) and every point `p`,
`Transform(Transform(p, M), Inverse(M)) = p`. -/
theorem Transform_Inverse_roundtrip {α : Type} [LinearOrderedField α] (M : Matrix4x4 α)
    (p : Vector3 α) (h : IsRigid M) : Transform (Transform p M) (Inverse M) = p := by
  obtain ⟨hR, h0, h1, h2, h3⟩ := h
  have h00 := hR 0 0 (by decide) (by decide)
  have h01 := hR 0 1 (by decide) (by decide)
  have h02 := hR 0 2 (by decide) (by decide)
  have h11 := hR 1 1 (by decide) (by decide)
  have h12 := hR 1 2 (by decide) (by decide)
  have h22 := hR 2 2 (by decide) (by decide)
  simp at h00 h01 h02 h11 h12 h22
  obtain ⟨x, y, z⟩ := p
  ext
  · simp [Transform, Inverse_m, h0, h1, h2, h3]
    linear_combination x * h00 + y * h01 + z * h02
  · simp [Transform, Inverse_m, h0, h1, h2, h3]
    linear_combination x * h01 + y * h11 + z * h12
  · simp [Transform, Inverse_m, h0, h1, h2, h3]
    linear_combination x * h02 + y * h12 + z * h22

/-- The theorem `Transform_Inverse_roundtrip` at a quarter turn about z followed
by a translation, and the point `(1, 2, 3)`. -/
theorem Transform_Inverse_roundtrip_witness :
    IsRigid sampleRigid ∧
      Transform (Transform (⟨1, 2, 3⟩ : Vector3 ℚ) sampleRigid) (Inverse sampleRigid)
        = ⟨1, 2, 3⟩ :=
  ⟨sampleRigid_isRigid, Transform_Inverse_roundtrip sampleRigid ⟨1, 2, 3⟩ sampleRigid_isRigid⟩

/-! ## Projection, viewport and the remaining vector helpers -/

/-- The transformed point is the three numerators divided by `TransformW`. -/
theorem Transform_eq {α : Type} [LinearOrderedField α] (v : Vector3 α) (M : Matrix4x4 α) :
    Transform v M =
      { x := (M.m 0 0 * v.x + M.m 1 0 * v.y + M.m 2 0 * v.z + M.m 3 0) / TransformW v M
        y := (M.m 0 1 * v.x + M.m 1 1 * v.y + M.m 2 1 * v.z + M.m 3 1) / TransformW v M
        z := (M.m 0 2 * v.x + M.m 1 2 * v.y + M.m 2 2 * v.z + M.m 3 2) / TransformW v M } :=
  rfl

/-- C13: w-passthrough of the perspective matrix. For
`P = MakePerspectiveFovMatrix(fovY, aspect, near, far)` and every point
`(x, y, z)` with `z ≠ 0`, the homogeneous divisor computed by `Transform` is
`z` (so nonzero), the transformed `x` is `(h / aspect) * x / z` and the transformed `y` is
`h * y / z` with `h = 1 / tan(fovY / 2)`; for the point `(0, 0, near)` the
divisor is `near`. -/
theorem perspective_w_passthrough (fovY aspect near far x y z : ℝ) (hz : z ≠ 0) :
    TransformW ⟨x, y, z⟩ (MakePerspectiveFovMatrix Real.tan fovY aspect near far) = z ∧
    TransformW ⟨x, y, z⟩ (MakePerspectiveFovMatrix Real.tan fovY aspect near far) ≠ 0 ∧
    (Transform ⟨x, y, z⟩ (MakePerspectiveFovMatrix Real.tan fovY aspect near far)).x
      = (1 / Real.tan (fovY / 2) / aspect) * x / z ∧
    (Transform ⟨x, y, z⟩ (MakePerspectiveFovMatrix Real.tan fovY aspect near far)).y
      = (1 / Real.tan (fovY / 2)) * y / z ∧
    TransformW ⟨0, 0, near⟩ (MakePerspectiveFovMatrix Real.tan fovY aspect near far) = near := by
  have hw : ∀ a b c : ℝ,
      TransformW ⟨a, b, c⟩ (MakePerspectiveFovMatrix Real.tan fovY aspect near far) = c := by
    intro a b c
    simp [TransformW, MakePerspectiveFovMatrix]
  refine ⟨hw x y z, by rw [hw]; exact hz, ?_, ?_, hw 0 0 near⟩
  · rw [Transform_eq, hw]
    simp [MakePerspectiveFovMatrix, Matrix.vecHead, Matrix.vecTail]
  · rw [Transform_eq, hw]
    simp [MakePerspectiveFovMatrix, Matrix.vecHead, Matrix.vecTail]

/-- The theorem `perspective_w_passthrough` at the repository's projection
parameters and the point `(1, 2, 3)`. -/
theorem perspective_w_passthrough_witness :
    (3 : ℝ) ≠ 0 ∧
    TransformW ⟨1, 2, 3⟩ (MakePerspectiveFovMatrix Real.tan (9 / 20) (16 / 9) (1 / 10) 100)
      = (3 : ℝ) :=
  ⟨by norm_num,
    (perspective_w_passthrough (9 / 20) (16 / 9) (1 / 10) 100 1 2 3 (by norm_num)).1⟩

/-- C14: depth range of the perspective projection. For `0 < near < far`,
`P = MakePerspectiveFovMatrix(fovY, aspect, near, far)` and every point
`(x, y, z)` with `near ≤ z ≤ far`, the `z` component of `Transform((x,y,z), P)`
lies in `[0, 1]`, equals `0` when `z = near` and equals `1` when `z = far`. -/
theorem perspective_depth_range (fovY aspect near far x y z : ℝ)
    (hn : 0 < near) (hnf : near < far) (hz1 : near ≤ z) (hz2 : z ≤ far) :
    0 ≤ (Transform ⟨x, y, z⟩ (MakePerspectiveFovMatrix Real.tan fovY aspect near far)).z ∧
    (Transform ⟨x, y, z⟩ (MakePerspectiveFovMatrix Real.tan fovY aspect near far)).z ≤ 1 ∧
    (z = near →
      (Transform ⟨x, y, z⟩ (MakePerspectiveFovMatrix Real.tan fovY aspect near far)).z = 0) ∧
    (z = far →
      (Transform ⟨x, y, z⟩ (MakePerspectiveFovMatrix Real.tan fovY aspect near far)).z = 1) := by
  have hz : 0 < z := lt_of_lt_of_le hn hz1
  have hf : 0 < far := lt_trans hn hnf
  have hd : 0 < far - near := sub_pos.mpr hnf
  have hval : (Transform ⟨x, y, z⟩ (MakePerspectiveFovMatrix Real.tan fovY aspect near far)).z
      = far * (z - near) / ((far - near) * z) := by
    simp [Transform, MakePerspectiveFovMatrix]
    field_simp
    ring
  rw [hval]
  refine ⟨?_, ?_, ?_, ?_⟩
  · exact div_nonneg (mul_nonneg hf.le (sub_nonneg.mpr hz1)) (mul_pos hd hz).le
  · rw [div_le_one (mul_pos hd hz)]
    nlinarith
  · intro h
    rw [h, sub_self, mul_zero, zero_div]
  · intro h
    rw [h]
    field_simp
    ring

/-- The theorem `perspective_depth_range` at `near = 1`, `far = 3` and the point
`(0, 0, 2)` between the clip planes. -/
theorem perspective_depth_range_witness :
    (0 : ℝ) < 1 ∧ (1 : ℝ) < 3 ∧ (1 : ℝ) ≤ 2 ∧ (2 : ℝ) ≤ 3 ∧
    0 ≤ (Transform ⟨0, 0, 2⟩ (MakePerspectiveFovMatrix Real.tan (9 / 20) (16 / 9) 1 3)).z ∧
    (Transform ⟨0, 0, 2⟩ (MakePerspectiveFovMatrix Real.tan (9 / 20) (16 / 9) 1 3)).z ≤ 1 :=
  ⟨by norm_num, by norm_num, by norm_num, by norm_num,
    (perspective_depth_range (9 / 20) (16 / 9) 1 3 0 0 2
      (by norm_num) (by norm_num) (by norm_num) (by norm_num)).1,
    (perspective_depth_range (9 / 20) (16 / 9) 1 3 0 0 2
      (by norm_num) (by norm_num) (by norm_num) (by norm_num)).2.1⟩

/-- C15, as amended: in exact arithmetic, for
`V = MakeViewportMatrix(left, top, width, height, minDepth, maxDepth)`
and every point `(x, y, z)`, `Transform((x,y,z), V)` is
`(left + (x + 1) * width / 2, top + (1 - y) * height / 2,
minDepth + z * (maxDepth - minDepth))`; so clip-space `(-1, 1, 0)` maps to
`(left, top, minDepth)` and `(1, -1, 1)` maps to
`(left + width, top + height, maxDepth)`, with the Y axis flipped. -/
theorem viewport_Transform {α : Type} [LinearOrderedField α]
    (left top width height minDepth maxDepth x y z : α) :
    Transform ⟨x, y, z⟩ (MakeViewportMatrix left top width height minDepth maxDepth)
      = ⟨left + (x + 1) * width / 2, top + (1 - y) * height / 2,
          minDepth + z * (maxDepth - minDepth)⟩ ∧
    Transform ⟨-1, 1, 0⟩ (MakeViewportMatrix left top width height minDepth maxDepth)
      = ⟨left, top, minDepth⟩ ∧
    Transform ⟨1, -1, 1⟩ (MakeViewportMatrix left top width height minDepth maxDepth)
      = ⟨left + width, top + height, maxDepth⟩ := by
  have h : ∀ a b c : α,
      Transform ⟨a, b, c⟩ (MakeViewportMatrix left top width height minDepth maxDepth)
        = ⟨left + (a + 1) * width / 2, top + (1 - b) * height / 2,
            minDepth + c * (maxDepth - minDepth)⟩ := by
    intro a b c
    ext
    · simp [Transform, MakeViewportMatrix]
      ring
    · simp [Transform, MakeViewportMatrix]
      ring
    · simp [Transform, MakeViewportMatrix]
      ring
  refine ⟨h x y z, ?_, ?_⟩
  · rw [h]
    ext
    · simp
    · simp
    · simp
  · rw [h]
    ext
    · simp
      ring
    · simp
      ring
    · simp

/-- C17: `Multiply` is associative: `Multiply(Multiply(A, B), C)` equals
`Multiply(A, Multiply(B, C))` for all 4x4 matrices, where entry `[i][j]` of
`Multiply(m1, m2)` is the sum over `k = 0..3` of `m1[i][k] * m2[k][j]`. -/
theorem Multiply_assoc {α : Type} [LinearOrderedField α] (A B C : Matrix4x4 α) :
    Multiply (Multiply A B) C = Multiply A (Multiply B C) ∧
    ∀ (m1 m2 : Matrix4x4 α) (i j : Fin 4),
      (Multiply m1 m2).m i j = ∑ k : Fin 4, m1.m i k * m2.m k j := by
  constructor
  · ext i j
    simp only [Multiply_m]
    ring
  · intro m1 m2 i j
    rw [Multiply_m, Fin.sum_univ_four]
    ring

/-- C18: for every vector `v`, `Dot(v, Perpendicular(v)) = 0`, in both branches
(the result is `(-y, x, 0)` when `x` or `y` is nonzero and `(0, z, y)`
otherwise); and for every nonzero `v` the result is nonzero. -/
theorem Perpendicular_perp {α : Type} [LinearOrderedField α] (v : Vector3 α) :
    Dot v (Perpendicular v) = 0 ∧
    (v.x ≠ 0 ∨ v.y ≠ 0 → Perpendicular v = ⟨-v.y, v.x, 0⟩) ∧
    (¬ (v.x ≠ 0 ∨ v.y ≠ 0) → Perpendicular v = ⟨0, v.z, v.y⟩) ∧
    (v ≠ ⟨0, 0, 0⟩ → Perpendicular v ≠ ⟨0, 0, 0⟩) := by
  by_cases h : v.x ≠ 0 ∨ v.y ≠ 0
  · have hp : Perpendicular v = ⟨-v.y, v.x, 0⟩ := if_pos h
    refine ⟨?_, fun _ => hp, fun hn => absurd h hn, ?_⟩
    · rw [hp]
      simp only [Dot]
      ring
    · intro _ h0
      rw [hp] at h0
      have hy : -v.y = 0 := congrArg Vector3.x h0
      have hx : v.x = 0 := congrArg Vector3.y h0
      rcases h with h | h
      · exact h hx
      · exact h (neg_eq_zero.mp hy)
  · have hp : Perpendicular v = ⟨0, v.z, v.y⟩ := if_neg h
    push_neg at h
    obtain ⟨hx, hy⟩ := h
    refine ⟨?_, fun h2 => ?_, fun _ => hp, ?_⟩
    · rw [hp]
      simp only [Dot, hx, hy]
      ring
    · rcases h2 with h2 | h2
      · exact absurd hx h2
      · exact absurd hy h2
    · intro hv h0
      rw [hp] at h0
      have hz : v.z = 0 := congrArg Vector3.y h0
      apply hv
      ext
      · exact hx
      · exact hy
      · exact hz

/-- The theorem `Perpendicular_perp` at the vector `(0, 0, 5)`, which takes the
second branch: the result `(0, 5, 0)` is perpendicular to it and nonzero. -/
theorem Perpendicular_perp_witness :
    (⟨0, 0, 5⟩ : Vector3 ℚ) ≠ ⟨0, 0, 0⟩ ∧
    Dot (⟨0, 0, 5⟩ : Vector3 ℚ) (Perpendicular ⟨0, 0, 5⟩) = 0 ∧
    Perpendicular (⟨0, 0, 5⟩ : Vector3 ℚ) ≠ ⟨0, 0, 0⟩ :=
  have h : (⟨0, 0, 5⟩ : Vector3 ℚ) ≠ ⟨0, 0, 0⟩ := by decide
  ⟨h, (Perpendicular_perp ⟨0, 0, 5⟩).1, (Perpendicular_perp ⟨0, 0, 5⟩).2.2.2 h⟩

/-- Dividing the homogeneous coordinates by `W` before the second transform
changes neither numerator nor divisor ratio. -/
theorem homog_div {α : Type} [LinearOrderedField α] (a b c d e f g h X Y Z W : α)
    (hW : W ≠ 0) :
    (a * (X / W) + b * (Y / W) + c * (Z / W) + d) / (e * (X / W) + f * (Y / W) + g * (Z / W) + h)
      = (a * X + b * Y + c * Z + d * W) / (e * X + f * Y + g * Z + h * W) := by
  have hn : a * (X / W) + b * (Y / W) + c * (Z / W) + d = (a * X + b * Y + c * Z + d * W) / W := by
    field_simp
  have hd : e * (X / W) + f * (Y / W) + g * (Z / W) + h = (e * X + f * Y + g * Z + h * W) / W := by
    field_simp
  rw [hn, hd, div_div_div_cancel_right₀ hW]

theorem samplePerspective_divisor :
    samplePerspective.m 0 3 * (⟨1, 2, 3⟩ : Vector3 ℚ).x
      + samplePerspective.m 1 3 * (⟨1, 2, 3⟩ : Vector3 ℚ).y
      + samplePerspective.m 2 3 * (⟨1, 2, 3⟩ : Vector3 ℚ).z
      + samplePerspective.m 3 3 ≠ 0 := by
  simp [samplePerspective, Matrix.vecHead, Matrix.vecTail]

theorem samplePerspective_viewport_divisor :
    (Multiply samplePerspective sampleViewport).m 0 3 * (⟨1, 2, 3⟩ : Vector3 ℚ).x
      + (Multiply samplePerspective sampleViewport).m 1 3 * (⟨1, 2, 3⟩ : Vector3 ℚ).y
      + (Multiply samplePerspective sampleViewport).m 2 3 * (⟨1, 2, 3⟩ : Vector3 ℚ).z
      + (Multiply samplePerspective sampleViewport).m 3 3 ≠ 0 := by
  simp [Multiply_m, samplePerspective, sampleViewport, MakeViewportMatrix, Matrix.vecHead,
    Matrix.vecTail]

/-- C19: `Transform` is compatible with `Multiply`. For all 4x4 matrices `A`, `B`
and every point `p` whose homogeneous divisor under `A` is nonzero and whose
divisor under `Multiply(A, B)` is nonzero,
`Transform(Transform(p, A), B) = Transform(p, Multiply(A, B))`, and the divisor
of the second stage is nonzero as well; with `A = viewProjection` and
`B = viewport` this is the two-stage screen mapping of `DrawLineSegment`. -/
theorem Transform_Multiply {α : Type} [LinearOrderedField α] (A B : Matrix4x4 α)
    (p : Vector3 α)
    (hA : A.m 0 3 * p.x + A.m 1 3 * p.y + A.m 2 3 * p.z + A.m 3 3 ≠ 0)
    (hAB : (Multiply A B).m 0 3 * p.x + (Multiply A B).m 1 3 * p.y
      + (Multiply A B).m 2 3 * p.z + (Multiply A B).m 3 3 ≠ 0) :
    Transform (Transform p A) B = Transform p (Multiply A B) ∧
    TransformW (Transform p A) B ≠ 0 := by
  refine ⟨?_, ?_⟩
  swap
  · have hw : TransformW (Transform p A) B
        = ((Multiply A B).m 0 3 * p.x + (Multiply A B).m 1 3 * p.y
            + (Multiply A B).m 2 3 * p.z + (Multiply A B).m 3 3)
          / (A.m 0 3 * p.x + A.m 1 3 * p.y + A.m 2 3 * p.z + A.m 3 3) := by
      simp only [TransformW, Transform, Multiply_m]
      field_simp
      ring
    rw [hw]
    exact div_ne_zero hAB hA
  ext
  · simp only [Transform]
    rw [homog_div _ _ _ _ _ _ _ _ _ _ _ _ hA]
    simp only [Multiply_m]
    congr 1 <;> ring
  · simp only [Transform]
    rw [homog_div _ _ _ _ _ _ _ _ _ _ _ _ hA]
    simp only [Multiply_m]
    congr 1 <;> ring
  · simp only [Transform]
    rw [homog_div _ _ _ _ _ _ _ _ _ _ _ _ hA]
    simp only [Multiply_m]
    congr 1 <;> ring

/-- The theorem `Transform_Multiply` at a perspective matrix, the viewport matrix
of `WinMain` and the point `(1, 2, 3)`. -/
theorem Transform_Multiply_witness :
    (samplePerspective.m 0 3 * (⟨1, 2, 3⟩ : Vector3 ℚ).x
      + samplePerspective.m 1 3 * (⟨1, 2, 3⟩ : Vector3 ℚ).y
      + samplePerspective.m 2 3 * (⟨1, 2, 3⟩ : Vector3 ℚ).z
      + samplePerspective.m 3 3 ≠ 0) ∧
    ((Multiply samplePerspective sampleViewport).m 0 3 * (⟨1, 2, 3⟩ : Vector3 ℚ).x
      + (Multiply samplePerspective sampleViewport).m 1 3 * (⟨1, 2, 3⟩ : Vector3 ℚ).y
      + (Multiply samplePerspective sampleViewport).m 2 3 * (⟨1, 2, 3⟩ : Vector3 ℚ).z
      + (Multiply samplePerspective sampleViewport).m 3 3 ≠ 0) ∧
    Transform (Transform (⟨1, 2, 3⟩ : Vector3 ℚ) samplePerspective) sampleViewport
      = Transform ⟨1, 2, 3⟩ (Multiply samplePerspective sampleViewport) :=
  ⟨samplePerspective_divisor, samplePerspective_viewport_divisor,
    (Transform_Multiply samplePerspective sampleViewport ⟨1, 2, 3⟩ samplePerspective_divisor
      samplePerspective_viewport_divisor).1⟩

/-! ## Normalize -/

/-- C12: `Normalize((0,0,0)) = (0,0,0)`, and for every vector `v` other than the
zero vector `Normalize(v)` has Euclidean length `1` and equals `v` scaled by
the positive factor `1 / |v|`, over the reals. -/
theorem Normalize_unit (v : Vector3 ℝ) :
    Normalize Real.sqrt (⟨0, 0, 0⟩ : Vector3 ℝ) = ⟨0, 0, 0⟩ ∧
    (v ≠ ⟨0, 0, 0⟩ →
      Real.sqrt (Dot (Normalize Real.sqrt v) (Normalize Real.sqrt v)) = 1 ∧
      0 < 1 / Real.sqrt (Dot v v) ∧
      Normalize Real.sqrt v
        = ⟨1 / Real.sqrt (Dot v v) * v.x, 1 / Real.sqrt (Dot v v) * v.y,
            1 / Real.sqrt (Dot v v) * v.z⟩) := by
  constructor
  · simp [Normalize]
  · intro hv
    have hpos : 0 < Dot v v := by
      have h0 : 0 ≤ Dot v v := by
        simp only [Dot]
        nlinarith [mul_self_nonneg v.x, mul_self_nonneg v.y, mul_self_nonneg v.z]
      rcases eq_or_lt_of_le h0 with h | h
      · exfalso
        apply hv
        simp only [Dot] at h
        have hx : v.x = 0 := by
          nlinarith [mul_self_nonneg v.x, mul_self_nonneg v.y, mul_self_nonneg v.z]
        have hy : v.y = 0 := by
          nlinarith [mul_self_nonneg v.x, mul_self_nonneg v.y, mul_self_nonneg v.z]
        have hz : v.z = 0 := by
          nlinarith [mul_self_nonneg v.x, mul_self_nonneg v.y, mul_self_nonneg v.z]
        ext
        · exact hx
        · exact hy
        · exact hz
      · exact h
    have hL : 0 < Real.sqrt (Dot v v) := Real.sqrt_pos.mpr hpos
    have hLL : Real.sqrt (Dot v v) * Real.sqrt (Dot v v) = Dot v v :=
      Real.mul_self_sqrt hpos.le
    have hN : Normalize Real.sqrt v
        = ⟨v.x / Real.sqrt (Dot v v), v.y / Real.sqrt (Dot v v), v.z / Real.sqrt (Dot v v)⟩ :=
      if_neg hL.ne.symm
    refine ⟨?_, by positivity, ?_⟩
    · have h1 : Dot (Normalize Real.sqrt v) (Normalize Real.sqrt v) = 1 := by
        rw [hN]
        have hd : Dot (⟨v.x / Real.sqrt (Dot v v), v.y / Real.sqrt (Dot v v),
            v.z / Real.sqrt (Dot v v)⟩ : Vector3 ℝ)
            ⟨v.x / Real.sqrt (Dot v v), v.y / Real.sqrt (Dot v v), v.z / Real.sqrt (Dot v v)⟩
            = Dot v v / (Real.sqrt (Dot v v) * Real.sqrt (Dot v v)) := by
          simp only [Dot]
          field_simp
        rw [hd, hLL, div_self hpos.ne.symm]
      rw [h1, Real.sqrt_one]
    · rw [hN]
      ext
      · simp only [one_div, div_eq_inv_mul, mul_one]
      · simp only [one_div, div_eq_inv_mul, mul_one]
      · simp only [one_div, div_eq_inv_mul, mul_one]

/-- The theorem `Normalize_unit` at the vector `(3, 4, 0)`. -/
theorem Normalize_unit_witness :
    (⟨3, 4, 0⟩ : Vector3 ℝ) ≠ ⟨0, 0, 0⟩ ∧
    Real.sqrt (Dot (Normalize Real.sqrt (⟨3, 4, 0⟩ : Vector3 ℝ))
      (Normalize Real.sqrt (⟨3, 4, 0⟩ : Vector3 ℝ))) = 1 :=
  have h : (⟨3, 4, 0⟩ : Vector3 ℝ) ≠ ⟨0, 0, 0⟩ := by
    intro h0
    have hx : (3 : ℝ) = 0 := congrArg Vector3.x h0
    norm_num at hx
  ⟨h, ((Normalize_unit ⟨3, 4, 0⟩).2 h).1⟩

/-! ## The camera world matrix -/

/-- Multiplying two rows by a block with orthonormal rows keeps their dot
product. -/
theorem row_dot_Multiply {α : Type} [LinearOrderedField α] (B : Matrix4x4 α)
    (hB : ∀ i j : Fin 4, i ≠ 3 → j ≠ 3 →
      B.m i 0 * B.m j 0 + B.m i 1 * B.m j 1 + B.m i 2 * B.m j 2 = if i = j then 1 else 0)
    (a0 a1 a2 b0 b1 b2 : α) :
    (a0 * B.m 0 0 + a1 * B.m 1 0 + a2 * B.m 2 0) * (b0 * B.m 0 0 + b1 * B.m 1 0 + b2 * B.m 2 0)
      + (a0 * B.m 0 1 + a1 * B.m 1 1 + a2 * B.m 2 1)
        * (b0 * B.m 0 1 + b1 * B.m 1 1 + b2 * B.m 2 1)
      + (a0 * B.m 0 2 + a1 * B.m 1 2 + a2 * B.m 2 2)
        * (b0 * B.m 0 2 + b1 * B.m 1 2 + b2 * B.m 2 2)
      = a0 * b0 + a1 * b1 + a2 * b2 := by
  have h00 := hB 0 0 (by decide) (by decide)
  have h01 := hB 0 1 (by decide) (by decide)
  have h02 := hB 0 2 (by decide) (by decide)
  have h11 := hB 1 1 (by decide) (by decide)
  have h12 := hB 1 2 (by decide) (by decide)
  have h22 := hB 2 2 (by decide) (by decide)
  simp at h00 h01 h02 h11 h12 h22
  linear_combination (a0 * b0) * h00 + (a0 * b1 + a1 * b0) * h01 + (a0 * b2 + a2 * b0) * h02
    + (a1 * b1) * h11 + (a1 * b2 + a2 * b1) * h12 + (a2 * b2) * h22

/-- The product of two rigid transforms is rigid. -/
theorem IsRigid_Multiply {α : Type} [LinearOrderedField α] (A B : Matrix4x4 α)
    (hA : IsRigid A) (hB : IsRigid B) : IsRigid (Multiply A B) := by
  obtain ⟨hAR, hA0, hA1, hA2, hA3⟩ := hA
  obtain ⟨hBR, hB0, hB1, hB2, hB3⟩ := hB
  have hcol : ∀ i : Fin 4, i ≠ 3 → A.m i 3 = 0 := by
    intro i hi
    fin_cases i
    · exact hA0
    · exact hA1
    · exact hA2
    · exact absurd rfl hi
  refine ⟨?_, ?_, ?_, ?_, ?_⟩
  · intro i j hi hj
    have h := row_dot_Multiply B hBR (A.m i 0) (A.m i 1) (A.m i 2) (A.m j 0) (A.m j 1) (A.m j 2)
    simp only [Multiply_m, hcol i hi, hcol j hj]
    linear_combination h + hAR i j hi hj
  · rw [Multiply_m, hB0, hB1, hB2, hB3, hA0]
    ring
  · rw [Multiply_m, hB0, hB1, hB2, hB3, hA1]
    ring
  · rw [Multiply_m, hB0, hB1, hB2, hB3, hA2]
    ring
  · rw [Multiply_m, hB0, hB1, hB2, hB3, hA3]
    ring

theorem IsRigid_MakeRotateXMatrix (r : ℝ) : IsRigid (MakeRotateXMatrix Real.cos Real.sin r) := by
  have hcs := Real.cos_sq_add_sin_sq r
  refine ⟨?_, ?_, ?_, ?_, ?_⟩
  · intro i j hi hj
    fin_cases i <;> fin_cases j <;>
      simp [MakeRotateXMatrix, Matrix4x4.set, MakeIdentity4x4] at hi hj ⊢ <;>
      first | done | linear_combination hcs | ring
  all_goals simp [MakeRotateXMatrix, Matrix4x4.set, MakeIdentity4x4]

theorem IsRigid_MakeRotateYMatrix (r : ℝ) : IsRigid (MakeRotateYMatrix Real.cos Real.sin r) := by
  have hcs := Real.cos_sq_add_sin_sq r
  refine ⟨?_, ?_, ?_, ?_, ?_⟩
  · intro i j hi hj
    fin_cases i <;> fin_cases j <;>
      simp [MakeRotateYMatrix, Matrix4x4.set, MakeIdentity4x4] at hi hj ⊢ <;>
      first | done | linear_combination hcs | ring
  all_goals simp [MakeRotateYMatrix, Matrix4x4.set, MakeIdentity4x4]

theorem IsRigid_MakeRotateZMatrix (r : ℝ) : IsRigid (MakeRotateZMatrix Real.cos Real.sin r) := by
  have hcs := Real.cos_sq_add_sin_sq r
  refine ⟨?_, ?_, ?_, ?_, ?_⟩
  · intro i j hi hj
    fin_cases i <;> fin_cases j <;>
      simp [MakeRotateZMatrix, Matrix4x4.set, MakeIdentity4x4] at hi hj ⊢ <;>
      first | done | linear_combination hcs | ring
  all_goals simp [MakeRotateZMatrix, Matrix4x4.set, MakeIdentity4x4]

theorem IsRigid_MakeTranslateMatrix {α : Type} [LinearOrderedField α] (t : Vector3 α) :
    IsRigid (MakeTranslateMatrix t) := by
  refine ⟨?_, ?_, ?_, ?_, ?_⟩
  · intro i j hi hj
    fin_cases i <;> fin_cases j <;>
      simp [MakeTranslateMatrix, Matrix4x4.set, MakeIdentity4x4] at hi hj ⊢
  all_goals simp [MakeTranslateMatrix, Matrix4x4.set, MakeIdentity4x4]

/-- C11: for every camera rotation `(rx, ry, rz)` and translation `t`, the camera
world matrix `W = Multiply(Multiply(RotateX, Multiply(RotateY, RotateZ)), Translate)`
of the update loop is a rigid transform, and `Multiply(W, Inverse(W))` equals
`MakeIdentity4x4()`: the view matrix `Inverse(W)` is the true inverse. -/
theorem cameraWorldMatrix_Inverse (cameraRotate cameraTranslate : Vector3 ℝ) :
    IsRigid (cameraWorldMatrix Real.cos Real.sin cameraRotate cameraTranslate) ∧
    Multiply (cameraWorldMatrix Real.cos Real.sin cameraRotate cameraTranslate)
      (Inverse (cameraWorldMatrix Real.cos Real.sin cameraRotate cameraTranslate))
      = MakeIdentity4x4 := by
  have hW : IsRigid (cameraWorldMatrix Real.cos Real.sin cameraRotate cameraTranslate) :=
    IsRigid_Multiply _ _
      (IsRigid_Multiply _ _ (IsRigid_MakeRotateXMatrix _)
        (IsRigid_Multiply _ _ (IsRigid_MakeRotateYMatrix _) (IsRigid_MakeRotateZMatrix _)))
      (IsRigid_MakeTranslateMatrix _)
  refine ⟨hW, ?_⟩
  generalize cameraWorldMatrix Real.cos Real.sin cameraRotate cameraTranslate = W at hW ⊢
  obtain ⟨hR, h0, h1, h2, h3⟩ := hW
  have h00 := hR 0 0 (by decide) (by decide)
  have h01 := hR 0 1 (by decide) (by decide)
  have h02 := hR 0 2 (by decide) (by decide)
  have h10 := hR 1 0 (by decide) (by decide)
  have h11 := hR 1 1 (by decide) (by decide)
  have h12 := hR 1 2 (by decide) (by decide)
  have h20 := hR 2 0 (by decide) (by decide)
  have h21 := hR 2 1 (by decide) (by decide)
  have h22 := hR 2 2 (by decide) (by decide)
  simp at h00 h01 h02 h10 h11 h12 h20 h21 h22
  ext i j
  rw [Multiply_m, Inverse_m]
  fin_cases i <;> fin_cases j <;>
    simp [MakeIdentity4x4, h0, h1, h2, h3] <;> assumption

/-! ## Symmetries of the collision predicate -/

/-- Swapping `p2` and `p3` negates the normal. -/
theorem Dot_normal_swap (p1 p2 p3 w : Vector3 ℝ) :
    Dot (normal Real.sqrt ⟨p1, p3, p2⟩) w = -Dot (normal Real.sqrt ⟨p1, p2, p3⟩) w := by
  rw [Dot_normal, Dot_normal]
  have hc : Dot (Cross (edge1 (⟨p1, p3, p2⟩ : Triangle ℝ)) (edge2 ⟨p1, p3, p2⟩)) w
      = -Dot (Cross (edge1 (⟨p1, p2, p3⟩ : Triangle ℝ)) (edge2 ⟨p1, p2, p3⟩)) w := by
    simp only [Dot, Cross, edge1, edge2]
    ring
  have hcc : Dot (Cross (edge1 (⟨p1, p3, p2⟩ : Triangle ℝ)) (edge2 ⟨p1, p3, p2⟩))
        (Cross (edge1 (⟨p1, p3, p2⟩ : Triangle ℝ)) (edge2 ⟨p1, p3, p2⟩))
      = Dot (Cross (edge1 (⟨p1, p2, p3⟩ : Triangle ℝ)) (edge2 ⟨p1, p2, p3⟩))
        (Cross (edge1 (⟨p1, p2, p3⟩ : Triangle ℝ)) (edge2 ⟨p1, p2, p3⟩)) := by
    simp only [Dot, Cross, edge1, edge2]
    ring
  rw [hc, hcc, neg_div]

theorem dot_n_ld_swap (seg : LineSegment ℝ) (p1 p2 p3 : Vector3 ℝ) :
    dot_n_ld Real.sqrt seg ⟨p1, p3, p2⟩ = -dot_n_ld Real.sqrt seg ⟨p1, p2, p3⟩ := by
  unfold dot_n_ld
  rw [Dot_normal_swap p1 p2 p3]

theorem planeT_swap (seg : LineSegment ℝ) (p1 p2 p3 : Vector3 ℝ) :
    planeT Real.sqrt seg ⟨p1, p3, p2⟩ = planeT Real.sqrt seg ⟨p1, p2, p3⟩ := by
  have hd : distance Real.sqrt (⟨p1, p3, p2⟩ : Triangle ℝ)
      = -distance Real.sqrt (⟨p1, p2, p3⟩ : Triangle ℝ) := by
    unfold distance
    exact Dot_normal_swap p1 p2 p3 p1
  unfold planeT
  rw [dot_n_ld_swap seg p1 p2 p3, Dot_normal_swap p1 p2 p3, hd, div_neg, ← neg_div]
  congr 1
  ring

theorem apVec_swap (seg : LineSegment ℝ) (p1 p2 p3 : Vector3 ℝ) :
    apVec Real.sqrt seg ⟨p1, p3, p2⟩ = apVec Real.sqrt seg ⟨p1, p2, p3⟩ := by
  simp only [apVec, intersectionPoint, planeT_swap seg p1 p2 p3]

theorem denominator_swap (p1 p2 p3 : Vector3 ℝ) :
    denominator (⟨p1, p3, p2⟩ : Triangle ℝ) = denominator ⟨p1, p2, p3⟩ := by
  simp only [denominator, Dot, edge1, edge2]
  ring

theorem baryU_swap (seg : LineSegment ℝ) (p1 p2 p3 : Vector3 ℝ) :
    baryU Real.sqrt seg ⟨p1, p3, p2⟩ = baryV Real.sqrt seg ⟨p1, p2, p3⟩ := by
  unfold baryU baryV
  rw [apVec_swap seg p1 p2 p3, denominator_swap p1 p2 p3]
  simp only [Dot, edge1, edge2]
  ring

theorem baryV_swap (seg : LineSegment ℝ) (p1 p2 p3 : Vector3 ℝ) :
    baryV Real.sqrt seg ⟨p1, p3, p2⟩ = baryU Real.sqrt seg ⟨p1, p2, p3⟩ := by
  unfold baryU baryV
  rw [apVec_swap seg p1 p2 p3, denominator_swap p1 p2 p3]
  simp only [Dot, edge1, edge2]
  ring

/-- C16: `IsCollision` does not depend on the winding of the triangle:
`IsCollision(segment, (p1, p2, p3)) = IsCollision(segment, (p1, p3, p2))` for
every segment and triangle, over the reals. -/
theorem IsCollision_winding (seg : LineSegment ℝ) (p1 p2 p3 : Vector3 ℝ) :
    IsCollision Real.sqrt seg ⟨p1, p2, p3⟩ = IsCollision Real.sqrt seg ⟨p1, p3, p2⟩ := by
  rw [Bool.eq_iff_iff, IsCollision_eq_true_iff Real.sqrt seg ⟨p1, p2, p3⟩,
    IsCollision_eq_true_iff Real.sqrt seg ⟨p1, p3, p2⟩, dot_n_ld_swap seg p1 p2 p3, abs_neg,
    planeT_swap seg p1 p2 p3, denominator_swap p1 p2 p3, baryU_swap seg p1 p2 p3,
    baryV_swap seg p1 p2 p3]
  constructor
  · rintro ⟨h1, h2, h3, h4, h5, h6, h7⟩
    exact ⟨h1, h2, h3, h4, h6, h5, by linarith⟩
  · rintro ⟨h1, h2, h3, h4, h5, h6, h7⟩
    exact ⟨h1, h2, h3, h4, h6, h5, by linarith⟩

theorem dot_n_ld_reverse (a b : Vector3 ℝ) (tri : Triangle ℝ) :
    dot_n_ld Real.sqrt ⟨b, a⟩ tri = -dot_n_ld Real.sqrt ⟨a, b⟩ tri := by
  simp only [dot_n_ld, Dot, lineDirection]
  ring

theorem planeT_reverse (a b : Vector3 ℝ) (tri : Triangle ℝ)
    (h : dot_n_ld Real.sqrt ⟨a, b⟩ tri ≠ 0) :
    planeT Real.sqrt ⟨b, a⟩ tri = 1 - planeT Real.sqrt ⟨a, b⟩ tri := by
  have hb : Dot (normal Real.sqrt tri) b
      = Dot (normal Real.sqrt tri) a + dot_n_ld Real.sqrt ⟨a, b⟩ tri := by
    simp only [dot_n_ld, Dot, lineDirection]
    ring
  have key : ∀ D A d : ℝ, d ≠ 0 → (D - (A + d)) / -d = 1 - (D - A) / d := by
    intro D A d hd
    rw [div_neg, sub_add_eq_sub_sub, sub_div, div_self hd]
    ring
  unfold planeT
  rw [dot_n_ld_reverse a b tri]
  show (distance Real.sqrt tri - Dot (normal Real.sqrt tri) b) / -dot_n_ld Real.sqrt ⟨a, b⟩ tri
    = 1 - (distance Real.sqrt tri - Dot (normal Real.sqrt tri) a) / dot_n_ld Real.sqrt ⟨a, b⟩ tri
  rw [hb]
  exact key _ _ _ h

theorem apVec_reverse (a b : Vector3 ℝ) (tri : Triangle ℝ)
    (h : dot_n_ld Real.sqrt ⟨a, b⟩ tri ≠ 0) :
    apVec Real.sqrt ⟨b, a⟩ tri = apVec Real.sqrt ⟨a, b⟩ tri := by
  simp only [apVec, intersectionPoint, planeT_reverse a b tri h, lineDirection]
  ext
  · simp only []
    ring
  · simp only []
    ring
  · simp only []
    ring

/-- C20: `IsCollision` does not depend on the orientation of the segment:
`IsCollision({start = a, end = b}, triangle) = IsCollision({start = b, end = a}, triangle)`
for every triangle and all points `a`, `b`, over the reals. -/
theorem IsCollision_reverse (a b : Vector3 ℝ) (tri : Triangle ℝ) :
    IsCollision Real.sqrt ⟨a, b⟩ tri = IsCollision Real.sqrt ⟨b, a⟩ tri := by
  rw [Bool.eq_iff_iff, IsCollision_eq_true_iff Real.sqrt ⟨a, b⟩ tri,
    IsCollision_eq_true_iff Real.sqrt ⟨b, a⟩ tri, dot_n_ld_reverse a b tri, abs_neg]
  by_cases h1 : kEpsilon ≤ abs (dot_n_ld Real.sqrt ⟨a, b⟩ tri)
  · have hn0 : dot_n_ld Real.sqrt ⟨a, b⟩ tri ≠ 0 := ne_zero_of_kEpsilon_le_abs h1
    have hU : baryU Real.sqrt ⟨b, a⟩ tri = baryU Real.sqrt ⟨a, b⟩ tri := by
      unfold baryU
      rw [apVec_reverse a b tri hn0]
    have hV : baryV Real.sqrt ⟨b, a⟩ tri = baryV Real.sqrt ⟨a, b⟩ tri := by
      unfold baryV
      rw [apVec_reverse a b tri hn0]
    rw [planeT_reverse a b tri hn0, hU, hV]
    constructor
    · rintro ⟨h1, h2, h3, h4, h5, h6, h7⟩
      exact ⟨h1, by linarith, by linarith, h4, h5, h6, h7⟩
    · rintro ⟨h1, h2, h3, h4, h5, h6, h7⟩
      exact ⟨h1, by linarith, by linarith, h4, h5, h6, h7⟩
  · constructor
    · rintro ⟨h, -⟩
      exact absurd h h1
    · rintro ⟨h, -⟩
      exact absurd h h1

/-! ## The binary32 reading at concrete inputs -/

set_option maxRecDepth 100000

/-- An integer literal whose rounding is exact stands for that integer. -/
theorem F32.toRat_ofInt (n : ℤ) (h : (F32.ofInt n).k = n * 2 ^ 149) :
    (F32.ofInt n).toRat = n := by
  rw [F32.toRat, h]
  push_cast
  norm_num

/-- A dyadic literal whose rounding is exact stands for that number. -/
theorem F32.toRat_ofQ (n : ℤ) (e : ℕ) (he : e ≤ 149)
    (h : (F32.ofQ n (2 ^ e)).k = n * 2 ^ (149 - e)) :
    (F32.ofQ n (2 ^ e)).toRat = n / 2 ^ e := by
  rw [F32.toRat, h]
  push_cast
  rw [div_eq_div_iff (by positivity) (by positivity), mul_assoc, ← pow_add,
    Nat.sub_add_cancel he]

/-- Sample roundings of the binary32 reading: a tie goes to the even
neighbour, `0.1f * 0.1f`, `sqrt(2.0f)`, `(1/3) / 7` and a subnormal tie. -/
theorem F32.rounding_examples :
    F32.ofInt 1 + F32.ofQ 1 (2 ^ 24) = F32.ofInt 1 ∧
    F32.ofInt 1 + F32.ofQ 3 (2 ^ 24) = F32.ofQ (2 ^ 22 + 1) (2 ^ 22) ∧
    F32.ofQ 1 10 * F32.ofQ 1 10 = F32.ofQ 10737419 (2 ^ 30) ∧
    F32.sqrt (F32.ofInt 2) = F32.ofQ 11863283 (2 ^ 23) ∧
    F32.ofQ 1 3 / F32.ofInt 7 = F32.ofQ 12782641 (2 ^ 28) ∧
    F32.ofQ 5 (2 ^ 150) = F32.ofQ 2 (2 ^ 149) ∧
    (F32.ofQ 1 10).k = 13421773 * 2 ^ 122 := by
  decide

/-- The rounded literal `1e-6f` is the constant of the exact reading. -/
theorem Float32.kEpsilon_value : Float32.kEpsilon.toRat = (MT3.kEpsilon : ℚ) := by
  have h : Float32.kEpsilon.k = 8796093 * 2 ^ 106 := by decide
  rw [F32.toRat, h, MT3.kEpsilon]
  norm_num

theorem slantedTriangle_p1 :
    toRatV Float32.slantedTriangle.p1 = ⟨36, -29, 35⟩ := by
  ext
  · exact F32.toRat_ofInt 36 (by decide)
  · exact F32.toRat_ofInt (-29) (by decide)
  · exact F32.toRat_ofInt 35 (by decide)

theorem slantedTriangle_p2 :
    toRatV Float32.slantedTriangle.p2 = ⟨-64, 63, -1⟩ := by
  ext
  · exact F32.toRat_ofInt (-64) (by decide)
  · exact F32.toRat_ofInt 63 (by decide)
  · exact F32.toRat_ofInt (-1) (by decide)

theorem slantedTriangle_p3 :
    toRatV Float32.slantedTriangle.p3 = ⟨0, -37, -61⟩ := by
  ext
  · exact F32.toRat_ofInt 0 (by decide)
  · exact F32.toRat_ofInt (-37) (by decide)
  · exact F32.toRat_ofInt (-61) (by decide)

theorem slantedSegment_start :
    toRatV Float32.slantedSegment.start = ⟨2, -8, 2⟩ := by
  ext
  · exact F32.toRat_ofInt 2 (by decide)
  · exact F32.toRat_ofInt (-8) (by decide)
  · exact F32.toRat_ofInt 2 (by decide)

theorem slantedSegment_end :
    toRatV Float32.slantedSegment.end = ⟨-23, 15, -7⟩ := by
  ext
  · exact F32.toRat_ofInt (-23) (by decide)
  · exact F32.toRat_ofInt 15 (by decide)
  · exact F32.toRat_ofInt (-7) (by decide)

theorem thinTriangle_p1 :
    toRatV Float32.thinTriangle.p1 = ⟨0, -1 / 2 ^ 24, 1⟩ := by
  ext
  · exact F32.toRat_ofInt 0 (by decide)
  · exact F32.toRat_ofQ (-1) 24 (by decide) (by decide)
  · exact F32.toRat_ofInt 1 (by decide)

theorem thinTriangle_p2 :
    toRatV Float32.thinTriangle.p2 = ⟨1, 1, 1⟩ := by
  ext
  · exact F32.toRat_ofInt 1 (by decide)
  · exact F32.toRat_ofInt 1 (by decide)
  · exact F32.toRat_ofInt 1 (by decide)

theorem thinTriangle_p3 :
    toRatV Float32.thinTriangle.p3 = ⟨-3, -12582913 / 2 ^ 22, 1⟩ := by
  ext
  · exact F32.toRat_ofInt (-3) (by decide)
  · exact F32.toRat_ofQ (-12582913) 22 (by decide) (by decide)
  · exact F32.toRat_ofInt 1 (by decide)

/-- In binary32 too, the first guard of `IsCollision` returns false whenever the
computed `|dot_n_ld|` is below `1e-6f`. -/
theorem Float32.IsCollision_guard (seg : LineSegment F32) (tri : Triangle F32)
    (h : F32.abs (Float32.dot_n_ld seg tri) < Float32.kEpsilon) :
    Float32.IsCollision seg tri = false := by
  unfold Float32.IsCollision
  unfold Float32.dot_n_ld at h
  simp only [] at h ⊢
  rw [if_pos h]
  simp

/-- C4 fails as stated, in binary32. First, the threshold of the code is
`1e-6f`, below `10⁻⁶`: for the triangle `(0,0,0), (1,0,0), (0,1,0)` and the
segment from `(1/4, 1/4, 0)` to `(1/4, 1/4, 1e-6f)` every operation is exact,
`|dot_n_ld|` is `1e-6f < 10⁻⁶`, and `IsCollision` returns true. Second, for a
triangle with integer vertices and a segment whose integer endpoints are the
triangle points `(u, v) = (1/4, 1/4)` and `(1/2, 1/4)`, so that the segment lies
in the triangle, the rounded `dot_n_ld` is `-5 * 2⁻²²`, beyond the threshold,
and `IsCollision` returns true: a coplanar overlap is reported. -/
theorem IsCollision_parallel_fails :
    ((F32.abs (Float32.dot_n_ld Float32.thresholdSegment Float32.unitTriangle)).toRat
        = 8796093 / 2 ^ 43 ∧
      (8796093 / 2 ^ 43 : ℚ) < 1 / 1000000 ∧
      Float32.IsCollision Float32.thresholdSegment Float32.unitTriangle = true) ∧
    (IsPointAt (toRatV Float32.slantedTriangle.p1) (toRatV Float32.slantedTriangle.p2)
        (toRatV Float32.slantedTriangle.p3) (toRatV Float32.slantedSegment.start)
        (1 / 4) (1 / 4) ∧
      IsPointAt (toRatV Float32.slantedTriangle.p1) (toRatV Float32.slantedTriangle.p2)
        (toRatV Float32.slantedTriangle.p3) (toRatV Float32.slantedSegment.end)
        (1 / 2) (1 / 4) ∧
      (Float32.dot_n_ld Float32.slantedSegment Float32.slantedTriangle).toRat = -5 / 2 ^ 22 ∧
      Float32.IsCollision Float32.slantedSegment Float32.slantedTriangle = true) := by
  refine ⟨⟨?_, by norm_num, by decide⟩, ?_, ?_, ?_, by decide⟩
  · have h : (F32.abs (Float32.dot_n_ld Float32.thresholdSegment Float32.unitTriangle)).k
        = 8796093 * 2 ^ 106 := by decide
    rw [F32.toRat, h]
    norm_num
  · rw [slantedTriangle_p1, slantedTriangle_p2, slantedTriangle_p3, slantedSegment_start]
    refine ⟨?_, ?_, ?_⟩ <;> norm_num
  · rw [slantedTriangle_p1, slantedTriangle_p2, slantedTriangle_p3, slantedSegment_end]
    refine ⟨?_, ?_, ?_⟩ <;> norm_num
  · have h : (Float32.dot_n_ld Float32.slantedSegment Float32.slantedTriangle).k
        = -5 * 2 ^ 127 := by decide
    rw [F32.toRat, h]
    norm_num

/-- C6 fails as stated, in binary32: the vertices `(0, -2⁻²⁴, 1)`, `(1, 1, 1)`,
`(-3, -(3 + 2⁻²²), 1)` are binary32 numbers on one line, the rounded edges give
a nonzero cross product, both guards pass, and for the vertical segment through
the first vertex `IsCollision` returns true. -/
theorem IsCollision_collinear_fails :
    Collinear3 (toRatV Float32.thinTriangle.p1) (toRatV Float32.thinTriangle.p2)
      (toRatV Float32.thinTriangle.p3) ∧
    Float32.IsCollision Float32.thinSegment Float32.thinTriangle = true := by
  refine ⟨?_, by decide⟩
  rw [thinTriangle_p1, thinTriangle_p2, thinTriangle_p3]
  refine ⟨⟨0, -1 / 2 ^ 24, 1⟩, ⟨1, 1 + 1 / 2 ^ 24, 0⟩, 0, 1, -3, ?_⟩
  norm_num

/-- C15 fails as stated, in binary32. With `left = top = 0.1f`, width `1280`,
height `720` and depth range `[0, 1]`, the clip-space corner `(-1, 1, 0)` maps
to `(819/8192, 3277/32768, 0)`, which is not `(left, top, minDepth)`. With the
viewport of `WinMain` (`0, 0, 1280, 720, 0, 1`) the point `(0.7f, 0.7f, 0.3f)`
maps to `(1088, 108, 0.3f)`, while `left + (x + 1) * width / 2` is not `1088`
and `top + (1 - y) * height / 2` is not `108` for these numbers. -/
theorem viewport_Transform_fails :
    (Float32.Transform ⟨F32.ofInt (-1), F32.ofInt 1, F32.ofInt 0⟩
        (Float32.MakeViewportMatrix (F32.ofQ 1 10) (F32.ofQ 1 10) (F32.ofInt 1280)
          (F32.ofInt 720) (F32.ofInt 0) (F32.ofInt 1))
      = ⟨F32.ofQ 819 8192, F32.ofQ 3277 32768, F32.ofInt 0⟩ ∧
    Float32.Transform ⟨F32.ofInt (-1), F32.ofInt 1, F32.ofInt 0⟩
        (Float32.MakeViewportMatrix (F32.ofQ 1 10) (F32.ofQ 1 10) (F32.ofInt 1280)
          (F32.ofInt 720) (F32.ofInt 0) (F32.ofInt 1))
      ≠ ⟨F32.ofQ 1 10, F32.ofQ 1 10, F32.ofInt 0⟩) ∧
    (Float32.Transform ⟨F32.ofQ 7 10, F32.ofQ 7 10, F32.ofQ 3 10⟩
        (Float32.MakeViewportMatrix (F32.ofInt 0) (F32.ofInt 0) (F32.ofInt 1280)
          (F32.ofInt 720) (F32.ofInt 0) (F32.ofInt 1))
      = ⟨F32.ofInt 1088, F32.ofInt 108, F32.ofQ 3 10⟩ ∧
    (0 : ℚ) + ((F32.ofQ 7 10).toRat + 1) * 1280 / 2 ≠ 1088 ∧
    (0 : ℚ) + (1 - (F32.ofQ 7 10).toRat) * 720 / 2 ≠ 108) := by
  have h7 : (F32.ofQ 7 10).toRat = 11744051 / 2 ^ 24 := by
    have h : (F32.ofQ 7 10).k = 11744051 * 2 ^ 125 := by decide
    rw [F32.toRat, h]
    norm_num
  refine ⟨by decide, by decide, ?_, ?_⟩
  · rw [h7]
    norm_num
  · rw [h7]
    norm_num

end MT3
